import Mathlib

/-!
Verification of the per-room game orchestration engine of the `mashed`
repository (server sources `roomManager.ts`, `gameLoop.ts`, `types.ts`).

The TypeScript code is shallowly embedded: every interface of `types.ts`
becomes a structure, every mutation operation of `gameLoop.ts` /
`roomManager.ts` becomes a pure function from the old state to the new state
together with the `{ success, error? }` result the source returns.  JS
`Date.now()` timestamps are threaded explicitly as `now : Nat` parameters,
generated uuid identifiers are threaded as explicit `String` / `Nat → String`
parameters, and `Math.random` draws are threaded as an explicit choice oracle
`choose : Nat → Nat` (used modulo the length of the candidate list, which is
exactly the range that `Math.floor(Math.random() * len)` produces).

The single pending phase timer that `roomTimers` keeps per room is modelled as
an `Option RoundStatus` field of `GameLoopState`: `schedulePhaseEnd` replaces
it, `clearRoomTimer` erases it, and a firing timer consumes it.

JS string operations used by the source (`trim`, `toLowerCase`, `toUpperCase`,
`slice(0, n)`) are modelled character-wise on `String.data` so that they are
kernel-computable.
-/

/-- `RoomStatus` of `types.ts`. -/
inductive RoomStatus where
  | waiting | recording | matching | captioning | results | voting | scoring | finished
deriving DecidableEq, Repr

/-- `RoundStatus` of `types.ts`. -/
inductive RoundStatus where
  | recording | captioning | voting | completed
deriving DecidableEq, Repr

/-- `VoteCategory` of `types.ts`. -/
inductive VoteCategory where
  | standard | bestMisinterpretation | madeMeCryLaugh
deriving DecidableEq, Repr

/-- `AudioFormat` of `types.ts`. -/
inductive AudioFormat where
  | webm | mp3 | wav
deriving DecidableEq, Repr

/-- `GifSource` of `types.ts`. -/
inductive GifSource where
  | giphy | tenor
deriving DecidableEq, Repr

/-- `PlayerStats` of `types.ts`. -/
structure PlayerStats where
  soundsCreated : Nat
  captionsWritten : Nat
  roundsWon : Nat
  votesReceived : Nat
  soundVotesReceived : Nat
  bestMisinterpretationVotes : Nat
  madeMeCryLaughVotes : Nat
deriving DecidableEq, Repr

/-- `Player` of `types.ts`. -/
structure Player where
  id : String
  nickname : String
  avatar : String
  socketId : String
  roomId : Option String
  isHost : Bool
  isReady : Bool
  isConnected : Bool
  joinedAt : Nat
  score : Nat
  stats : PlayerStats
deriving DecidableEq, Repr

/-- `GameSettings` of `types.ts`. -/
structure GameSettings where
  recordingTimeLimit : Nat
  captioningTimeLimit : Nat
  votingTimeLimit : Nat
  pointsPerVote : Nat
  bonusPointsEnabled : Bool
  roundWinnerBonus : Nat
  soundMakerVotePoints : Nat
  participationPoints : Nat
deriving DecidableEq, Repr

/-- `Assignment` of `types.ts`. -/
structure Assignment where
  id : String
  soundMakerId : String
  gifSelectorId : String
  roundNumber : Nat
deriving DecidableEq, Repr

/-- `AudioData` of `types.ts`. -/
structure AudioData where
  id : String
  url : String
  duration : Nat
  format : AudioFormat
  size : Nat
  recordedAt : Nat
deriving DecidableEq, Repr

/-- `GifData` of `types.ts`. -/
structure GifData where
  id : String
  url : String
  previewUrl : String
  source : GifSource
  title : String
  width : Nat
  height : Nat
deriving DecidableEq, Repr

/-- `Vote` of `types.ts`. -/
structure Vote where
  id : String
  playerId : String
  submissionId : String
  category : VoteCategory
  points : Nat
  votedAt : Nat
deriving DecidableEq, Repr

/-- `Reaction` of `types.ts`. -/
structure Reaction where
  playerId : String
  emoji : String
  reactedAt : Nat
deriving DecidableEq, Repr

/-- `Submission` of `types.ts`. -/
structure Submission where
  id : String
  roundNumber : Nat
  assignmentId : String
  soundMakerId : String
  gifSelectorId : String
  audio : Option AudioData
  gif : Option GifData
  caption : String
  votes : List Vote
  reactions : List Reaction
  score : Nat
  submittedAt : Option Nat
deriving DecidableEq, Repr

/-- `Round` of `types.ts`. -/
structure Round where
  roundNumber : Nat
  status : RoundStatus
  soundMakers : List String
  gifSelectors : List String
  assignments : List Assignment
  submissions : List Submission
  startedAt : Nat
  recordingEndedAt : Option Nat
  captioningEndedAt : Option Nat
  votingEndedAt : Option Nat
deriving DecidableEq, Repr

/-- `Room` of `types.ts`. -/
structure Room where
  id : String
  hostId : String
  players : List Player
  status : RoomStatus
  settings : GameSettings
  currentRound : Nat
  totalRounds : Nat
  rounds : List Round
  createdAt : Nat
  startedAt : Option Nat
  endedAt : Option Nat
deriving DecidableEq, Repr

/-- `LeaderboardEntry` of `types.ts`. -/
structure LeaderboardEntry where
  rank : Nat
  playerId : String
  nickname : String
  avatar : String
  score : Nat
  scoreChange : Nat
  isTied : Bool
deriving DecidableEq, Repr

/-- The `{ success: boolean; error?: string }` result every mutation
operation of `gameLoop.ts` returns. -/
structure OpResult where
  success : Bool
  error : Option String
deriving DecidableEq, Repr

/-- `JoinRoomPayload` of `types.ts`. -/
structure JoinRoomPayload where
  roomCode : String
  nickname : String
  avatar : Option String
deriving DecidableEq, Repr

/-- One room of `gameLoop.ts` together with its `roomTimers` entry: `timer`
is the phase guarded by the pending `setTimeout`, `none` when no timer is
armed (or when it has been cancelled / has fired). -/
structure GameLoopState where
  room : Room
  timer : Option RoundStatus
deriving DecidableEq, Repr

/-- JS `String.prototype.trim()`, modelled character-wise. -/
def jsTrim (s : String) : String :=
  ⟨((s.data.dropWhile Char.isWhitespace).reverse.dropWhile Char.isWhitespace).reverse⟩

/-- JS `String.prototype.toLowerCase()`, modelled character-wise. -/
def jsToLower (s : String) : String := ⟨s.data.map Char.toLower⟩

/-- JS `String.prototype.toUpperCase()`, modelled character-wise. -/
def jsToUpper (s : String) : String := ⟨s.data.map Char.toUpper⟩

/-- JS `String.prototype.slice(0, n)`, modelled character-wise. -/
def jsSlice (s : String) (n : Nat) : String := ⟨s.data.take n⟩

/-- `defaultSettings` of `roomManager.ts`. -/
def defaultSettings : GameSettings :=
  { recordingTimeLimit := 30
    captioningTimeLimit := 60
    votingTimeLimit := 45
    pointsPerVote := 50
    bonusPointsEnabled := true
    roundWinnerBonus := 100
    soundMakerVotePoints := 25
    participationPoints := 10 }

/-- `defaultStats` of `roomManager.ts`. -/
def defaultStats : PlayerStats :=
  { soundsCreated := 0
    captionsWritten := 0
    roundsWon := 0
    votesReceived := 0
    soundVotesReceived := 0
    bestMisinterpretationVotes := 0
    madeMeCryLaughVotes := 0 }

/-- `joinRoom` of `roomManager.ts`.  The global `rooms` map is passed as a
lookup function; the generated uuid `playerId`, the wall clock `now` and the
randomly drawn fallback nickname `randomNick` are threaded as parameters.  The
source `throw`s on each guard before any mutation, so a thrown error leaves
the room and the player registry unchanged; the model returns `.error` there
and returns the updated room only on success. -/
def joinRoom (payload : JoinRoomPayload) (socketId playerId randomNick : String)
    (now : Nat) (rooms : String → Option Room) : Except String (Room × Player) :=
  let roomCode := jsToUpper payload.roomCode
  match rooms roomCode with
  | none => .error "Room not found"
  | some room =>
    if room.status ≠ RoomStatus.waiting then
      .error "Game already in progress"
    else if 8 ≤ room.players.length then
      .error "Room is full (max 8 players)"
    else
      let normalizedNickname := jsToLower (jsTrim payload.nickname)
      match room.players.find?
          (fun p => jsToLower (jsTrim p.nickname) == normalizedNickname && p.isConnected) with
      | some _ => .error "Nickname already taken in this room"
      | none =>
        let player : Player :=
          { id := playerId
            nickname := jsSlice (if payload.nickname == "" then randomNick else payload.nickname) 20
            avatar := payload.avatar.getD "🎮"
            socketId := socketId
            roomId := some roomCode
            isHost := false
            isReady := false
            isConnected := true
            joinedAt := now
            score := 0
            stats := defaultStats }
        .ok ({ room with players := room.players ++ [player] }, player)

/-- The connected players of a room (`room.players.filter(p => p.isConnected)`). -/
def connectedPlayers (room : Room) : List Player :=
  room.players.filter (fun p => p.isConnected)

/-- The ids of the connected players of a room. -/
def connectedIds (room : Room) : List String :=
  (connectedPlayers room).map (fun p => p.id)

/-- `room.rounds[room.rounds.length - 1]` — the current (last) round. -/
def lastRound? (room : Room) : Option Round := room.rounds.getLast?

/-- Replacing the current (last) round, the functional image of the source
mutating the round object found in `room.rounds`. -/
def setLastRound (room : Room) (r : Round) : Room :=
  { room with rounds := room.rounds.dropLast ++ [r] }

/-- `schedulePhaseEnd` of `gameLoop.ts`: arming a deadline first clears any
existing timer, so the pending timer is simply replaced. -/
def schedulePhaseEnd (phase : RoundStatus) (s : GameLoopState) : GameLoopState :=
  { s with timer := some phase }

/-- `clearRoomTimer` of `gameLoop.ts`. -/
def clearRoomTimer (s : GameLoopState) : GameLoopState :=
  { s with timer := none }

/-- Mutating the first player of the list whose `id` matches, the functional
image of `room.players.find(p => p.id === pid)` followed by a field mutation;
when no player matches, nothing changes (the source skips under `if`). -/
def modifyFirstPlayer (ps : List Player) (pid : String) (f : Player → Player) :
    List Player :=
  match ps with
  | [] => []
  | p :: rest =>
    if p.id == pid then f p :: rest else p :: modifyFirstPlayer rest pid f

/-- The `voteCounts` map of `calculateScores`, a JS `Map` built by
`voteCounts.set(submission.id, submission.votes.length)` over the submissions
in order (a later `set` of the same key overwrites), read back with default
`0` (`voteCounts.get(id) || 0`). -/
def voteCountsMap (subs : List Submission) : String → Nat :=
  subs.foldl (fun m s => fun id => if id == s.id then s.votes.length else m id)
    (fun _ => 0)

/-- `Math.max(...voteCounts.values(), 0)` of `calculateScores`.  The model
folds over one lookup per submission instead of one per distinct key; the two
enumerations hold the same values, so the maximum agrees. -/
def maxVotesOf (subs : List Submission) : Nat :=
  (subs.map (fun s => voteCountsMap subs s.id)).foldr Nat.max 0

/-- The body of the `for` loop of `calculateScores` for one submission:
compute the score, write it on the submission, credit the GIF selector, and
credit the sound maker when the submission has the maximum votes. -/
def scoreOneSubmission (settings : GameSettings) (vc : String → Nat) (maxV : Nat)
    (acc : List Player × List Submission) (sub : Submission) :
    List Player × List Submission :=
  let votes := vc sub.id
  let score := votes * settings.pointsPerVote + settings.participationPoints
  let score := if votes > 0 && votes == maxV then score + settings.roundWinnerBonus else score
  let sub := { sub with score := score }
  let players := modifyFirstPlayer acc.1 sub.gifSelectorId
    (fun p => { p with score := p.score + score })
  let players :=
    if votes == maxV && votes > 0 then
      modifyFirstPlayer players sub.soundMakerId
        (fun p => { p with score := p.score + settings.soundMakerVotePoints })
    else players
  (players, acc.2 ++ [sub])

/-- `calculateScores` of `gameLoop.ts`, returning the updated players and the
updated submissions of the round. -/
def calculateScores (settings : GameSettings) (players : List Player)
    (subs : List Submission) : List Player × List Submission :=
  let vc := voteCountsMap subs
  let maxV := maxVotesOf subs
  subs.foldl (scoreOneSubmission settings vc maxV) (players, [])

/-- `updatePlayerStats` of `gameLoop.ts`. -/
def updatePlayerStats (players : List Player) (subs : List Submission) :
    List Player :=
  subs.foldl
    (fun ps sub =>
      let ps := modifyFirstPlayer ps sub.soundMakerId (fun p =>
        { p with stats := { p.stats with
            soundsCreated := p.stats.soundsCreated + 1
            soundVotesReceived := p.stats.soundVotesReceived + sub.votes.length } })
      let ps := modifyFirstPlayer ps sub.gifSelectorId (fun p =>
        { p with stats := { p.stats with
            captionsWritten := p.stats.captionsWritten + 1
            votesReceived := p.stats.votesReceived + sub.votes.length } })
      let maxVotes := (subs.map (fun s => s.votes.length)).foldr Nat.max 0
      if sub.votes.length == maxVotes && maxVotes > 0 then
        modifyFirstPlayer ps sub.gifSelectorId (fun p =>
          { p with stats := { p.stats with roundsWon := p.stats.roundsWon + 1 } })
      else ps)
    players

/-- `endVotingPhase` of `gameLoop.ts`: close the round, move the room to
`scoring`, run `calculateScores` and `updatePlayerStats`.  The 5 s pause that
later starts the next round (or ends the game) is a separate event and is not
part of this step; no room timer is armed here. -/
def endVotingPhase (now : Nat) (s : GameLoopState) : GameLoopState :=
  match lastRound? s.room with
  | none => s
  | some r =>
    let r := { r with status := RoundStatus.completed, votingEndedAt := some now }
    let (players, subs) := calculateScores s.room.settings s.room.players r.submissions
    let players := updatePlayerStats players subs
    let r := { r with submissions := subs }
    { s with room :=
        { setLastRound s.room r with status := RoomStatus.scoring, players := players } }

/-- `submission.votes.push(vote)` on the submission object found by
`round.submissions.find(s => s.id === submissionId)` in `castVote`: the vote
is appended to the first submission whose id matches. -/
def addVoteFirst : List Submission → String → Vote → List Submission
  | [], _, _ => []
  | sub :: rest, sid, v =>
    if sub.id == sid then { sub with votes := sub.votes ++ [v] } :: rest
    else sub :: addVoteFirst rest sid v

/-- `castVote` of `gameLoop.ts`.  The generated vote id and the timestamp are
parameters.  Mirrors the source order: phase guard, submission lookup,
self-vote guard, removal of every existing vote of the caster from every
submission, insertion of the new vote, then the early-completion check
against the total number of votes across all submissions and categories. -/
def castVote (playerId submissionId : String) (category : VoteCategory)
    (voteId : String) (now : Nat) (s : GameLoopState) : GameLoopState × OpResult :=
  match lastRound? s.room with
  | none => (s, ⟨false, some "Not in voting phase"⟩)
  | some round =>
    if round.status ≠ RoundStatus.voting then
      (s, ⟨false, some "Not in voting phase"⟩)
    else
      match round.submissions.find? (fun sub => sub.id == submissionId) with
      | none => (s, ⟨false, some "Submission not found"⟩)
      | some submission =>
        if submission.gifSelectorId == playerId || submission.soundMakerId == playerId then
          (s, ⟨false, some "Cannot vote for your own submission"⟩)
        else
          let vote : Vote :=
            { id := voteId, playerId := playerId, submissionId := submissionId
              category := category, points := s.room.settings.pointsPerVote
              votedAt := now }
          let removed := round.submissions.map
            (fun sub => { sub with votes := sub.votes.filter (fun v => v.playerId != playerId) })
          let subs := addVoteFirst removed submissionId vote
          let round := { round with submissions := subs }
          let room := setLastRound s.room round
          let totalVotes := (subs.map (fun sub => sub.votes.length)).sum
          if (connectedPlayers room).length ≤ totalVotes then
            (endVotingPhase now (clearRoomTimer { s with room := room }), ⟨true, none⟩)
          else
            ({ s with room := room }, ⟨true, none⟩)

/-- One step of the assignment loop of `startRound`: for the next sound maker,
filter the gif selectors not yet claimed, and when some are available draw one
at random (`choose step % available.length` models
`Math.floor(Math.random() * availableSelectors.length)`) and emit the
assignment; otherwise the sound maker stays idle.  `assignId` supplies the
generated assignment ids. -/
def makeAssignmentsGo (gifSelectors : List String) (choose : Nat → Nat)
    (assignId : Nat → String) (roundNumber : Nat) :
    List String → List String → Nat → List Assignment
  | [], _, _ => []
  | soundMakerId :: rest, usedSelectors, step =>
    let available := gifSelectors.filter (fun id => !(usedSelectors.contains id))
    if h : 0 < available.length then
      let gifSelectorId := available.get ⟨choose step % available.length, Nat.mod_lt _ h⟩
      { id := assignId step, soundMakerId := soundMakerId,
        gifSelectorId := gifSelectorId, roundNumber := roundNumber } ::
        makeAssignmentsGo gifSelectors choose assignId roundNumber rest
          (gifSelectorId :: usedSelectors) (step + 1)
    else
      makeAssignmentsGo gifSelectors choose assignId roundNumber rest usedSelectors (step + 1)

/-- The assignment loop of `startRound` of `gameLoop.ts`. -/
def makeAssignments (soundMakers gifSelectors : List String) (choose : Nat → Nat)
    (assignId : Nat → String) (roundNumber : Nat) : List Assignment :=
  makeAssignmentsGo gifSelectors choose assignId roundNumber soundMakers [] 0

/-- The empty submission `startRound` creates for one assignment. -/
def emptySubmission (subId : String) (roundNumber : Nat) (a : Assignment) : Submission :=
  { id := subId, roundNumber := roundNumber, assignmentId := a.id
    soundMakerId := a.soundMakerId, gifSelectorId := a.gifSelectorId
    audio := none, gif := none, caption := "", votes := [], reactions := []
    score := 0, submittedAt := none }

/-- The round record `startRound` builds and pushes: role split at
`Math.ceil(n / 2)` of the shuffled connected player ids, the assignment list,
and one empty submission per assignment.  `shuffled` stands for
`shuffle([...playerIds])`; theorems assume it is a permutation of the
connected player ids.  `subId` supplies the generated submission ids. -/
def buildRound (currentRound now : Nat) (shuffled : List String) (choose : Nat → Nat)
    (assignId subId : Nat → String) : Round :=
  let numSoundMakers := (shuffled.length + 1) / 2
  let soundMakers := shuffled.take numSoundMakers
  let gifSelectors := shuffled.drop numSoundMakers
  let assignments := makeAssignments soundMakers gifSelectors choose assignId currentRound
  let submissions := assignments.enum.map
    (fun ia => emptySubmission (subId ia.1) currentRound ia.2)
  { roundNumber := currentRound, status := RoundStatus.recording
    soundMakers := soundMakers, gifSelectors := gifSelectors
    assignments := assignments, submissions := submissions
    startedAt := now, recordingEndedAt := none
    captioningEndedAt := none, votingEndedAt := none }

/-- `startRound` of `gameLoop.ts`: push the new round and arm the recording
deadline. -/
def startRound (shuffled : List String) (choose : Nat → Nat)
    (assignId subId : Nat → String) (now : Nat) (s : GameLoopState) : GameLoopState :=
  let round := buildRound s.room.currentRound now shuffled choose assignId subId
  schedulePhaseEnd RoundStatus.recording
    { s with room := { s.room with rounds := s.room.rounds ++ [round] } }

/-- The placeholder audio `endRecordingPhase` synthesizes for a submission
without audio (`duration: 3`, empty `url`).  The fresh
`placeholder_${uuid}` id is threaded as a parameter; nothing downstream reads
it. -/
def audioPlaceholder (placeholderId : String) (now : Nat) : AudioData :=
  { id := placeholderId, url := "", duration := 3, format := AudioFormat.webm
    size := 0, recordedAt := now }

/-- The per-submission step of `endRecordingPhase`: a submission without
audio receives the placeholder. -/
def fillMissingAudio (placeholderId : String) (now : Nat) (sub : Submission) :
    Submission :=
  if sub.audio.isNone then
    { sub with audio := some (audioPlaceholder placeholderId now) }
  else sub

/-- `endRecordingPhase` of `gameLoop.ts`: move round and room to captioning,
fill missing audio with the placeholder, arm the captioning deadline. -/
def endRecordingPhase (placeholderId : String) (now : Nat) (s : GameLoopState) :
    GameLoopState :=
  match lastRound? s.room with
  | none => s
  | some r =>
    let r := { r with status := RoundStatus.captioning, recordingEndedAt := some now }
    let r := { r with submissions :=
      r.submissions.map (fillMissingAudio placeholderId now) }
    schedulePhaseEnd RoundStatus.captioning
      { s with room := { setLastRound s.room r with status := RoomStatus.captioning } }

/-- The stock default GIF `endCaptioningPhase` substitutes for a missing
selection. -/
def defaultGif : GifData :=
  { id := "default"
    url := "https://media.giphy.com/media/l0HlNQ03J5JxX6lva/giphy.gif"
    previewUrl := "https://media.giphy.com/media/l0HlNQ03J5JxX6lva/200w_s.gif"
    source := GifSource.giphy, title := "Default GIF", width := 480, height := 270 }

/-- The per-submission step of `endCaptioningPhase`: a submission that is
not yet finalized is auto-submitted now, receiving the default GIF when its
GIF is missing and the default caption when its caption is empty; a
submission already carrying a `submittedAt` is left exactly as it is. -/
def autoSubmitFill (now : Nat) (sub : Submission) : Submission :=
  if sub.submittedAt.isNone then
    let sub := { sub with submittedAt := some now }
    let sub := if sub.gif.isNone then { sub with gif := some defaultGif } else sub
    if sub.caption == "" then { sub with caption := "No caption provided" } else sub
  else sub

/-- `endCaptioningPhase` of `gameLoop.ts`: the round status jumps to
`voting`, the room shows `results`, and every submission that is *not yet
finalized* (`!submission.submittedAt`) is auto-submitted via
`autoSubmitFill`.  The 3 s reveal pause that then calls `startVotingPhase`
is a separate event. -/
def endCaptioningPhase (now : Nat) (s : GameLoopState) : GameLoopState :=
  match lastRound? s.room with
  | none => s
  | some r =>
    let r := { r with status := RoundStatus.voting, captioningEndedAt := some now }
    let r := { r with submissions := r.submissions.map (autoSubmitFill now) }
    { s with room := { setLastRound s.room r with status := RoomStatus.results } }

/-- `startVotingPhase` of `gameLoop.ts`: round and room move to `voting` and
the voting deadline is armed. -/
def startVotingPhase (s : GameLoopState) : GameLoopState :=
  match lastRound? s.room with
  | none => s
  | some r =>
    let r := { r with status := RoundStatus.voting }
    schedulePhaseEnd RoundStatus.voting
      { s with room := { setLastRound s.room r with status := RoomStatus.voting } }

/-- Mutating the first submission of the list satisfying `pred`, the
functional image of `round.submissions.find(...)` followed by a field
mutation on the found object. -/
def modifyFirstSubmission (subs : List Submission) (pred : Submission → Bool)
    (f : Submission → Submission) : List Submission :=
  match subs with
  | [] => []
  | sub :: rest =>
    if pred sub then f sub :: rest else sub :: modifyFirstSubmission rest pred f

/-- `submitAudio` of `gameLoop.ts`. -/
def submitAudio (playerId : String) (audio : AudioData) (s : GameLoopState) :
    GameLoopState × OpResult :=
  match lastRound? s.room with
  | none => (s, ⟨false, some "Not in recording phase"⟩)
  | some round =>
    if round.status ≠ RoundStatus.recording then
      (s, ⟨false, some "Not in recording phase"⟩)
    else
      match round.submissions.find? (fun sub => sub.soundMakerId == playerId) with
      | none => (s, ⟨false, some "You are not a sound maker this round"⟩)
      | some _ =>
        let subs := modifyFirstSubmission round.submissions
          (fun sub => sub.soundMakerId == playerId)
          (fun sub => { sub with audio := some audio })
        ({ s with room := setLastRound s.room { round with submissions := subs } },
          ⟨true, none⟩)

/-- `submitGif` of `gameLoop.ts`. -/
def submitGif (playerId assignmentId : String) (gif : GifData) (s : GameLoopState) :
    GameLoopState × OpResult :=
  match lastRound? s.room with
  | none => (s, ⟨false, some "Not in captioning phase"⟩)
  | some round =>
    if round.status ≠ RoundStatus.captioning then
      (s, ⟨false, some "Not in captioning phase"⟩)
    else
      match round.submissions.find? (fun sub => sub.assignmentId == assignmentId) with
      | none => (s, ⟨false, some "Invalid assignment"⟩)
      | some submission =>
        if submission.gifSelectorId ≠ playerId then
          (s, ⟨false, some "Invalid assignment"⟩)
        else
          let subs := modifyFirstSubmission round.submissions
            (fun sub => sub.assignmentId == assignmentId)
            (fun sub => { sub with gif := some gif })
          ({ s with room := setLastRound s.room { round with submissions := subs } },
            ⟨true, none⟩)

/-- `submitCaption` of `gameLoop.ts` (`caption.slice(0, 140)`). -/
def submitCaption (playerId assignmentId caption : String) (s : GameLoopState) :
    GameLoopState × OpResult :=
  match lastRound? s.room with
  | none => (s, ⟨false, some "Not in captioning phase"⟩)
  | some round =>
    if round.status ≠ RoundStatus.captioning then
      (s, ⟨false, some "Not in captioning phase"⟩)
    else
      match round.submissions.find? (fun sub => sub.assignmentId == assignmentId) with
      | none => (s, ⟨false, some "Invalid assignment"⟩)
      | some submission =>
        if submission.gifSelectorId ≠ playerId then
          (s, ⟨false, some "Invalid assignment"⟩)
        else
          let subs := modifyFirstSubmission round.submissions
            (fun sub => sub.assignmentId == assignmentId)
            (fun sub => { sub with caption := jsSlice caption 140 })
          ({ s with room := setLastRound s.room { round with submissions := subs } },
            ⟨true, none⟩)

/-- `finalizeSubmission` of `gameLoop.ts`: stamp `submittedAt` on the
assignment's submission (unconditionally — also when it is already set), then
run the early-completion check: when every submission carries a
`submittedAt`, cancel the timer and end the captioning phase. -/
def finalizeSubmission (playerId assignmentId : String) (now : Nat)
    (s : GameLoopState) : GameLoopState × OpResult :=
  match lastRound? s.room with
  | none => (s, ⟨false, some "Not in captioning phase"⟩)
  | some round =>
    if round.status ≠ RoundStatus.captioning then
      (s, ⟨false, some "Not in captioning phase"⟩)
    else
      match round.submissions.find? (fun sub => sub.assignmentId == assignmentId) with
      | none => (s, ⟨false, some "Invalid assignment"⟩)
      | some submission =>
        if submission.gifSelectorId ≠ playerId then
          (s, ⟨false, some "Invalid assignment"⟩)
        else
          let subs := modifyFirstSubmission round.submissions
            (fun sub => sub.assignmentId == assignmentId)
            (fun sub => { sub with submittedAt := some now })
          let room := setLastRound s.room { round with submissions := subs }
          if subs.all (fun sub => sub.submittedAt.isSome) then
            (endCaptioningPhase now (clearRoomTimer { s with room := room }), ⟨true, none⟩)
          else
            ({ s with room := room }, ⟨true, none⟩)

/-- `handlePhaseTimeout` of `gameLoop.ts`: a firing timer is spent, and it is
ignored unless the current round is still in the phase it was guarding. -/
def handlePhaseTimeout (placeholderId : String) (phase : RoundStatus) (now : Nat)
    (s : GameLoopState) : GameLoopState :=
  let s := { s with timer := none }
  match lastRound? s.room with
  | none => s
  | some round =>
    if round.status ≠ phase then s
    else
      match phase with
      | RoundStatus.recording => endRecordingPhase placeholderId now s
      | RoundStatus.captioning => endCaptioningPhase now s
      | RoundStatus.voting => endVotingPhase now s
      | RoundStatus.completed => s

/-- The comparator `(a, b) => b.score - a.score` of `getLeaderboard` keeps
`a` before `b` exactly when `b.score ≤ a.score`. -/
def scoreDescOrder (a b : Player) : Prop := b.score ≤ a.score

instance : DecidableRel scoreDescOrder := fun a b => Nat.decLe b.score a.score

instance : IsTotal Player scoreDescOrder := ⟨fun a b => Nat.le_total b.score a.score⟩

instance : IsTrans Player scoreDescOrder :=
  ⟨fun _ _ _ hab hbc => Nat.le_trans hbc hab⟩

/-- The entry loop of `getLeaderboard`: walk the sorted players with the
running index, the current rank and the previous score; a player tied with
the previous score keeps the current rank, otherwise the rank restarts at
`index + 1`.  `scoreChange` is set to the literal `0` of the source. -/
def buildLeaderboardEntries :
    List Player → Nat → Nat → Option Nat → List LeaderboardEntry
  | [], _, _, _ => []
  | p :: rest, i, currentRank, previousScore =>
    let isTied := previousScore == some p.score
    let rank := if isTied then currentRank else i + 1
    { rank := rank, playerId := p.id, nickname := p.nickname, avatar := p.avatar
      score := p.score, scoreChange := 0, isTied := isTied } ::
      buildLeaderboardEntries rest (i + 1) rank (some p.score)

/-- `getLeaderboard` of `gameLoop.ts`.  `insertionSort` models the stable JS
`sort((a, b) => b.score - a.score)`: both are stable sorts for the same total
preorder, hence produce the same list. -/
def getLeaderboard (room : Room) : List LeaderboardEntry :=
  let sorted := List.insertionSort scoreDescOrder
    (room.players.filter (fun p => p.isConnected))
  buildLeaderboardEntries sorted 0 1 none

/-- All votes currently held across the submissions of a round, in
submission order. -/
def allVotes (subs : List Submission) : List Vote := (subs.map (fun s => s.votes)).flatten

/-- The standard-category votes currently held across the submissions. -/
def standardVotes (subs : List Submission) : List Vote :=
  (allVotes subs).filter (fun v => v.category == VoteCategory.standard)

/-- `round.submissions.reduce((sum, s) => sum + s.votes.length, 0)` — the
total vote count `castVote` checks against the connected player count. -/
def totalVotesOf (subs : List Submission) : Nat :=
  (subs.map (fun s => s.votes.length)).sum

/-- The voting invariant the engine maintains when every vote is cast through
`castVote` by a connected player: distinct voters, all connected. -/
def voteInv (connected : List String) (subs : List Submission) : Prop :=
  ((allVotes subs).map (fun v => v.playerId)).Nodup ∧
    ∀ v ∈ allVotes subs, v.playerId ∈ connected

/-- The cumulative score of the (first) player with the given id, `0` when
absent — the observation used to state score-crediting facts. -/
def getScore (ps : List Player) (pid : String) : Nat :=
  ((ps.find? (fun p => p.id == pid)).map (fun p => p.score)).getD 0

/-- Modelled from the spec, for comparison with `calculateScores`: the round
maximum vote count, `maxVotes` across the round's submissions. -/
def specRoundMaxVotes (subs : List Submission) : Nat :=
  (subs.map (fun s => s.votes.length)).foldr Nat.max 0

/-- Modelled from the spec, for comparison with `calculateScores`:
`score = votes.count × pointsPerVote + participationPoints`, plus
`roundWinnerBonus` exactly when the vote count equals the positive round
maximum. -/
def specSubmissionScore (settings : GameSettings) (maxV : Nat) (sub : Submission) : Nat :=
  sub.votes.length * settings.pointsPerVote + settings.participationPoints +
    (if sub.votes.length = maxV ∧ 0 < maxV then settings.roundWinnerBonus else 0)

/-- Modelled from the spec, for comparison with `calculateScores`: what one
submission contributes to the cumulative score of player `pid` — the
submission score for its GIF selector, plus `soundMakerVotePoints` for its
sound maker when it is a max-vote submission. -/
def specPlayerCredit (settings : GameSettings) (maxV : Nat) (pid : String)
    (sub : Submission) : Nat :=
  (if sub.gifSelectorId = pid then specSubmissionScore settings maxV sub else 0) +
    (if sub.votes.length = maxV ∧ 0 < maxV ∧ sub.soundMakerId = pid then
      settings.soundMakerVotePoints else 0)

/-- Concrete test fixture: a player. -/
def mkTestPlayer (pid : String) (connected : Bool) (score : Nat) : Player :=
  { id := pid, nickname := pid, avatar := "", socketId := "", roomId := none
    isHost := false, isReady := false, isConnected := connected, joinedAt := 0
    score := score, stats := defaultStats }

/-- Concrete test fixture: an empty-content submission for round 1. -/
def mkTestSubmission (sid aid smId gsId : String) : Submission :=
  { id := sid, roundNumber := 1, assignmentId := aid, soundMakerId := smId
    gifSelectorId := gsId, audio := none, gif := none, caption := ""
    votes := [], reactions := [], score := 0, submittedAt := none }

/-- Concrete test fixture: a vote worth the default 50 points. -/
def mkTestVote (vid pid sid : String) (cat : VoteCategory) : Vote :=
  { id := vid, playerId := pid, submissionId := sid, category := cat
    points := 50, votedAt := 0 }

/-- Concrete test fixture: a round with the given status and submissions. -/
def mkTestRound (status : RoundStatus) (subs : List Submission) : Round :=
  { roundNumber := 1, status := status, soundMakers := [], gifSelectors := []
    assignments := [], submissions := subs, startedAt := 0
    recordingEndedAt := none, captioningEndedAt := none, votingEndedAt := none }

/-- Concrete test fixture: a room on its first of five rounds. -/
def mkTestRoom (players : List Player) (status : RoomStatus) (rounds : List Round) : Room :=
  { id := "ROOM", hostId := "p1", players := players, status := status
    settings := defaultSettings, currentRound := 1, totalRounds := 5
    rounds := rounds, createdAt := 0, startedAt := none, endedAt := none }

/-- The score `scoreOneSubmission` computes from a vote count: votes times
`pointsPerVote`, plus `participationPoints`, plus `roundWinnerBonus` when the
count is positive and equals the maximum. -/
def rawSubmissionScore (settings : GameSettings) (maxV votes : Nat) : Nat :=
  let score := votes * settings.pointsPerVote + settings.participationPoints
  if votes > 0 && votes == maxV then score + settings.roundWinnerBonus else score

/-- Concrete test fixture: a voting round among four connected players with
two submissions (`s1` by sound maker `p3` / GIF selector `p4`, `s2` by `p2` /
`p3`); `p1` already holds a standard vote on `s1`. -/
def voteFixtureSubs : List Submission :=
  [{ mkTestSubmission "s1" "a1" "p3" "p4" with
      votes := [mkTestVote "v1" "p1" "s1" VoteCategory.standard] },
    mkTestSubmission "s2" "a2" "p2" "p3"]

/-- Concrete test fixture: the game state holding `voteFixtureSubs` in the
voting phase with the voting timer armed. -/
def voteFixtureState : GameLoopState :=
  ⟨mkTestRoom
      [mkTestPlayer "p1" true 0, mkTestPlayer "p2" true 0,
        mkTestPlayer "p3" true 0, mkTestPlayer "p4" true 0]
      RoomStatus.voting [mkTestRound RoundStatus.voting voteFixtureSubs],
    some RoundStatus.voting⟩

/-- Concrete test fixture: a voting round among four connected players where
three standard votes are already in (`p3`, `p4` on `s1`; `p1` on `s2`). -/
def earlyVoteSubs : List Submission :=
  [{ mkTestSubmission "s1" "a1" "p1" "p2" with
      votes := [mkTestVote "v1" "p3" "s1" VoteCategory.standard,
        mkTestVote "v2" "p4" "s1" VoteCategory.standard] },
    { mkTestSubmission "s2" "a2" "p3" "p4" with
      votes := [mkTestVote "v3" "p1" "s2" VoteCategory.standard] }]

/-- Concrete test fixture: the game state holding `earlyVoteSubs` in the
voting phase with the voting timer armed. -/
def earlyVoteState : GameLoopState :=
  ⟨mkTestRoom
      [mkTestPlayer "p1" true 0, mkTestPlayer "p2" true 0,
        mkTestPlayer "p3" true 0, mkTestPlayer "p4" true 0]
      RoomStatus.voting [mkTestRound RoundStatus.voting earlyVoteSubs],
    some RoundStatus.voting⟩

/-- Concrete test fixture: a captioning round where `s1` (GIF selector `p2`)
is already finalized at time 5 with caption `"first"` while `s2` is still
open. -/
def captionFixtureSubs : List Submission :=
  [{ mkTestSubmission "s1" "a1" "p1" "p2" with submittedAt := some 5, caption := "first" },
    mkTestSubmission "s2" "a2" "p3" "p4"]

/-- Concrete test fixture: the game state holding `captionFixtureSubs` in
the captioning phase with the captioning timer armed. -/
def captionFixtureState : GameLoopState :=
  ⟨mkTestRoom
      [mkTestPlayer "p1" true 0, mkTestPlayer "p2" true 0,
        mkTestPlayer "p3" true 0, mkTestPlayer "p4" true 0]
      RoomStatus.captioning [mkTestRound RoundStatus.captioning captionFixtureSubs],
    some RoundStatus.captioning⟩

/-- Concrete test fixture: a captioning round with one submission that has
audio but no GIF, no caption, and is not yet finalized. -/
def finalizeFixtureState : GameLoopState :=
  ⟨mkTestRoom
      [mkTestPlayer "p1" true 0, mkTestPlayer "p2" true 0,
        mkTestPlayer "p3" true 0, mkTestPlayer "p4" true 0]
      RoomStatus.captioning
      [mkTestRound RoundStatus.captioning
        [{ mkTestSubmission "s1" "a1" "p1" "p2" with
            audio := some (audioPlaceholder "au" 0) }]],
    some RoundStatus.captioning⟩

/-- Concrete test fixture: a recording round with one submission and no
audio yet. -/
def recFixtureState : GameLoopState :=
  ⟨mkTestRoom
      [mkTestPlayer "p1" true 0, mkTestPlayer "p2" true 0,
        mkTestPlayer "p3" true 0, mkTestPlayer "p4" true 0]
      RoomStatus.recording
      [mkTestRound RoundStatus.recording [mkTestSubmission "s1" "a1" "p1" "p2"]],
    some RoundStatus.recording⟩

/-- Concrete test fixture: a lobby of five connected players about to start
a round. -/
def roundRoom5 : Room :=
  mkTestRoom
    [mkTestPlayer "p1" true 0, mkTestPlayer "p2" true 0, mkTestPlayer "p3" true 0,
      mkTestPlayer "p4" true 0, mkTestPlayer "p5" true 0]
    RoomStatus.recording []

/-- The duplicate-nickname predicate of `joinRoom`. -/
def nicknameTaken (payload : JoinRoomPayload) (room : Room) : Prop :=
  ∃ p ∈ room.players, p.isConnected = true ∧
    jsToLower (jsTrim p.nickname) = jsToLower (jsTrim payload.nickname)

/-- C10.  `joinRoom` fails — leaving every room unchanged, since the model
returns no room on `.error` and the source throws before mutating — whenever
the room does not exist, its status is not `waiting`, it already holds 8
players, or a connected player carries the same trimmed, case-insensitive
nickname; on success the new player is appended as a non-host with score 0
and all-zero stats, so a successful join finds at most 7 players and the room
never exceeds 8, and no join ever succeeds once the status left `waiting`. -/
theorem joinRoom_guards_and_append
    (payload : JoinRoomPayload) (socketId playerId randomNick : String)
    (now : Nat) (rooms : String → Option Room) :
    (rooms (jsToUpper payload.roomCode) = none →
      joinRoom payload socketId playerId randomNick now rooms = .error "Room not found") ∧
    (∀ room, rooms (jsToUpper payload.roomCode) = some room →
      (room.status ≠ RoomStatus.waiting →
        joinRoom payload socketId playerId randomNick now rooms =
          .error "Game already in progress") ∧
      (room.status = RoomStatus.waiting → 8 ≤ room.players.length →
        joinRoom payload socketId playerId randomNick now rooms =
          .error "Room is full (max 8 players)") ∧
      (room.status = RoomStatus.waiting → room.players.length < 8 →
        nicknameTaken payload room →
        joinRoom payload socketId playerId randomNick now rooms =
          .error "Nickname already taken in this room") ∧
      (room.status = RoomStatus.waiting → room.players.length < 8 →
        ¬ nicknameTaken payload room →
        ∃ player : Player,
          joinRoom payload socketId playerId randomNick now rooms =
            .ok ({ room with players := room.players ++ [player] }, player) ∧
          player.isHost = false ∧ player.score = 0 ∧ player.stats = defaultStats ∧
          room.players.length + 1 ≤ 8)) := by
  constructor
  · intro hnone
    simp [joinRoom, hnone]
  · intro room hroom
    have hfind : ∀ (h : ¬ nicknameTaken payload room),
        room.players.find?
          (fun p => jsToLower (jsTrim p.nickname) ==
            jsToLower (jsTrim payload.nickname) && p.isConnected) = none := by
      intro h
      apply List.find?_eq_none.mpr
      intro p hp
      simp only [Bool.and_eq_true, beq_iff_eq]
      rintro ⟨hn, hc⟩
      exact h ⟨p, hp, hc, hn⟩
    refine ⟨?_, ?_, ?_, ?_⟩
    · intro hst
      simp [joinRoom, hroom, hst]
    · intro hst hfull
      simp [joinRoom, hroom, hst, hfull, Nat.not_lt.mpr hfull]
    · intro hst hlt htaken
      obtain ⟨p, hp, hc, hn⟩ := htaken
      have hsome : (room.players.find?
          (fun p => jsToLower (jsTrim p.nickname) ==
            jsToLower (jsTrim payload.nickname) && p.isConnected)).isSome := by
        rcases hfound : room.players.find?
            (fun p => jsToLower (jsTrim p.nickname) ==
              jsToLower (jsTrim payload.nickname) && p.isConnected) with _ | q
        · exfalso
          have := List.find?_eq_none.mp hfound p hp
          simp only [Bool.and_eq_true, beq_iff_eq] at this
          exact this ⟨hn, hc⟩
        · rw [hfound]
          rfl
      obtain ⟨q, hq⟩ := Option.isSome_iff_exists.mp hsome
      simp [joinRoom, hroom, hst, Nat.not_le.mpr hlt, hq]
    · intro hst hlt hfree
      refine ⟨{ id := playerId
                nickname := jsSlice
                  (if payload.nickname == "" then randomNick else payload.nickname) 20
                avatar := payload.avatar.getD "🎮"
                socketId := socketId
                roomId := some (jsToUpper payload.roomCode)
                isHost := false, isReady := false, isConnected := true
                joinedAt := now, score := 0, stats := defaultStats },
        ?_, rfl, rfl, rfl, by omega⟩
      simp [joinRoom, hroom, hst, Nat.not_le.mpr hlt, hfind hfree]

/-- Concrete instantiation of `joinRoom_guards_and_append`: a waiting
two-player room accepts a third player with fresh nickname, appending a
non-host entry with score 0 and zero stats. -/
theorem joinRoom_guards_and_append_witness :
    ∃ (player : Player) (r : Room),
      joinRoom ⟨"ab", "Carol", none⟩ "sock3" "p3" "Goat7" 5
        (fun c => if c = "AB" then some
          { id := "AB", hostId := "p1"
            players :=
              [{ id := "p1", nickname := "Alice", avatar := "a", socketId := "s1"
                 roomId := some "AB", isHost := true, isReady := false
                 isConnected := true, joinedAt := 0, score := 0, stats := defaultStats },
               { id := "p2", nickname := "Bob", avatar := "b", socketId := "s2"
                 roomId := some "AB", isHost := false, isReady := false
                 isConnected := true, joinedAt := 1, score := 0, stats := defaultStats }]
            status := RoomStatus.waiting, settings := defaultSettings
            currentRound := 0, totalRounds := 5, rounds := [], createdAt := 0
            startedAt := none, endedAt := none } else none) = .ok (r, player) ∧
      player.isHost = false ∧ player.score = 0 ∧ player.stats = defaultStats := by
  obtain ⟨player, heq, hhost, hscore, hstats, _⟩ :=
    ((joinRoom_guards_and_append ⟨"ab", "Carol", none⟩ "sock3" "p3" "Goat7" 5
      (fun c => if c = "AB" then some
        { id := "AB", hostId := "p1"
          players :=
            [{ id := "p1", nickname := "Alice", avatar := "a", socketId := "s1"
               roomId := some "AB", isHost := true, isReady := false
               isConnected := true, joinedAt := 0, score := 0, stats := defaultStats },
             { id := "p2", nickname := "Bob", avatar := "b", socketId := "s2"
               roomId := some "AB", isHost := false, isReady := false
               isConnected := true, joinedAt := 1, score := 0, stats := defaultStats }]
          status := RoomStatus.waiting, settings := defaultSettings
          currentRound := 0, totalRounds := 5, rounds := [], createdAt := 0
          startedAt := none, endedAt := none } else none)).2
      { id := "AB", hostId := "p1"
        players :=
          [{ id := "p1", nickname := "Alice", avatar := "a", socketId := "s1"
             roomId := some "AB", isHost := true, isReady := false
             isConnected := true, joinedAt := 0, score := 0, stats := defaultStats },
           { id := "p2", nickname := "Bob", avatar := "b", socketId := "s2"
             roomId := some "AB", isHost := false, isReady := false
             isConnected := true, joinedAt := 1, score := 0, stats := defaultStats }]
        status := RoomStatus.waiting, settings := defaultSettings
        currentRound := 0, totalRounds := 5, rounds := [], createdAt := 0
        startedAt := none, endedAt := none } (by decide)).2.2.2 rfl (by decide)
      (by unfold nicknameTaken; decide)
  exact ⟨player, _, heq, hhost, hscore, hstats⟩

/-- `setLastRound` makes its argument the current round. -/
theorem lastRound?_setLastRound (room : Room) (r : Round) :
    lastRound? (setLastRound room r) = some r := by
  simp [lastRound?, setLastRound]

/-- C8.  `castVote` always rejects a self-vote: when the target submission
lists the voter as its GIF selector or its sound maker, the call fails with
the self-vote error and returns the state unchanged — in particular no vote
list of any submission is mutated. -/
theorem castVote_rejects_self_vote
    (playerId submissionId : String) (category : VoteCategory) (voteId : String)
    (now : Nat) (s : GameLoopState) (round : Round) (sub : Submission)
    (hround : lastRound? s.room = some round)
    (hstatus : round.status = RoundStatus.voting)
    (hfind : round.submissions.find? (fun x => x.id == submissionId) = some sub)
    (hself : sub.gifSelectorId = playerId ∨ sub.soundMakerId = playerId) :
    castVote playerId submissionId category voteId now s =
      (s, ⟨false, some "Cannot vote for your own submission"⟩) := by
  have hb : (sub.gifSelectorId == playerId || sub.soundMakerId == playerId) = true := by
    rcases hself with h | h <;> simp [h]
  simp [castVote, hround, hstatus, hfind, hb]

/-- Concrete instantiation of `castVote_rejects_self_vote`: the sound maker
of submission `s1` tries to vote for it and is rejected without any state
change. -/
theorem castVote_rejects_self_vote_witness :
    castVote "p1" "s1" VoteCategory.standard "v9" 3
      ⟨mkTestRoom [mkTestPlayer "p1" true 0, mkTestPlayer "p2" true 0]
        RoomStatus.voting
        [mkTestRound RoundStatus.voting [mkTestSubmission "s1" "a1" "p1" "p2"]],
        some RoundStatus.voting⟩ =
      (⟨mkTestRoom [mkTestPlayer "p1" true 0, mkTestPlayer "p2" true 0]
        RoomStatus.voting
        [mkTestRound RoundStatus.voting [mkTestSubmission "s1" "a1" "p1" "p2"]],
        some RoundStatus.voting⟩,
        ⟨false, some "Cannot vote for your own submission"⟩) :=
  castVote_rejects_self_vote "p1" "s1" VoteCategory.standard "v9" 3 _
    (mkTestRound RoundStatus.voting [mkTestSubmission "s1" "a1" "p1" "p2"])
    (mkTestSubmission "s1" "a1" "p1" "p2")
    (by decide) (by decide) (by decide) (Or.inr (by decide))

/-- `allVotes` unfolds one submission at a time. -/
theorem allVotes_cons (sub : Submission) (rest : List Submission) :
    allVotes (sub :: rest) = sub.votes ++ allVotes rest := by
  simp [allVotes]

/-- Filtering every vote list commutes with flattening. -/
theorem allVotes_filter (subs : List Submission) (p : Vote → Bool) :
    allVotes (subs.map (fun x => { x with votes := x.votes.filter p })) =
      (allVotes subs).filter p := by
  induction subs with
  | nil => rfl
  | cons sub rest ih =>
    simp only [List.map_cons, allVotes_cons, List.filter_append, ih]

/-- Appending a vote to the first submission whose id matches adds exactly
that vote to the round's vote pool, up to permutation. -/
theorem allVotes_addVoteFirst_perm (subs : List Submission) (sid : String) (v : Vote)
    (h : ∃ x ∈ subs, x.id = sid) :
    (allVotes (addVoteFirst subs sid v)).Perm (v :: allVotes subs) := by
  induction subs with
  | nil => simp at h
  | cons sub rest ih =>
    by_cases hid : (sub.id == sid) = true
    · simp only [addVoteFirst, hid, if_pos, allVotes_cons]
      have hshape : (sub.votes ++ [v]) ++ allVotes rest =
          sub.votes ++ (v :: allVotes rest) := by simp
      rw [hshape]
      exact List.perm_middle
    · have h' : ∃ x ∈ rest, x.id = sid := by
        rcases h with ⟨x, hx, hxid⟩
        rcases List.mem_cons.mp hx with hx | hx
        · exact absurd (beq_iff_eq.mpr (hx ▸ hxid)) hid
        · exact ⟨x, hx, hxid⟩
      simp only [addVoteFirst, hid, if_neg, Bool.false_eq_true, not_false_iff,
        allVotes_cons]
      exact ((ih h').append_left sub.votes).trans List.perm_middle

/-- A vote the filter rejects is invisible to the filtered view, wherever
`addVoteFirst` inserted it. -/
theorem addVoteFirst_filter_map (subs : List Submission) (sid : String) (v : Vote)
    (p : Vote → Bool) (hv : p v = false) :
    (addVoteFirst subs sid v).map (fun x => x.votes.filter p) =
      subs.map (fun x => x.votes.filter p) := by
  induction subs with
  | nil => rfl
  | cons sub rest ih =>
    by_cases hid : (sub.id == sid) = true
    · simp [addVoteFirst, hid, List.filter_append, hv]
    · simp [addVoteFirst, hid, ih]

/-- The submissions that `calculateScores` returns are the input submissions
with only the `score` field rewritten. -/
theorem calculateScores_snd (settings : GameSettings) (players : List Player)
    (subs : List Submission) :
    (calculateScores settings players subs).2 = subs.map (fun sub =>
      { sub with score :=
          (rawSubmissionScore settings (maxVotesOf subs) (voteCountsMap subs sub.id)) }) := by
  have key : ∀ (l : List Submission) (vc : String → Nat) (maxV : Nat)
      (ps : List Player) (acc : List Submission),
      (l.foldl (scoreOneSubmission settings vc maxV) (ps, acc)).2 =
        acc ++ l.map (fun sub =>
          { sub with score := rawSubmissionScore settings maxV (vc sub.id) }) := by
    intro l
    induction l with
    | nil => intro vc maxV ps acc; simp
    | cons sub rest ih =>
      intro vc maxV ps acc
      rw [List.foldl_cons]
      have heta : scoreOneSubmission settings vc maxV (ps, acc) sub =
          ((scoreOneSubmission settings vc maxV (ps, acc) sub).1,
            (scoreOneSubmission settings vc maxV (ps, acc) sub).2) := rfl
      rw [heta, ih]
      have h2 : (scoreOneSubmission settings vc maxV (ps, acc) sub).2 =
          acc ++ [{ sub with score := rawSubmissionScore settings maxV (vc sub.id) }] := by
        simp [scoreOneSubmission, rawSubmissionScore]
      rw [h2]
      simp
  simpa [calculateScores] using key subs (voteCountsMap subs) (maxVotesOf subs) players []

/-- Unfolding of the success path of `castVote`: with all guards passing, the
caster's votes are removed everywhere, the new vote is appended to the target
submission, and the early-completion check decides between an immediate
`endVotingPhase` (with the timer cancelled) and a plain state update. -/
theorem castVote_success_eq
    (playerId submissionId : String) (category : VoteCategory) (voteId : String)
    (now : Nat) (s : GameLoopState) (round : Round) (sub : Submission)
    (hround : lastRound? s.room = some round)
    (hstatus : round.status = RoundStatus.voting)
    (hfind : round.submissions.find? (fun x => x.id == submissionId) = some sub)
    (hgs : ¬ sub.gifSelectorId = playerId) (hsm : ¬ sub.soundMakerId = playerId) :
    castVote playerId submissionId category voteId now s =
      (let vote : Vote :=
        { id := voteId, playerId := playerId, submissionId := submissionId
          category := category, points := s.room.settings.pointsPerVote
          votedAt := now };
      let subs := addVoteFirst (round.submissions.map
          (fun x => { x with votes := x.votes.filter (fun v => v.playerId != playerId) }))
          submissionId vote;
      let room := setLastRound s.room { round with submissions := subs };
      if (connectedPlayers room).length ≤ totalVotesOf subs then
        (endVotingPhase now (clearRoomTimer { s with room := room }), ⟨true, none⟩)
      else
        ({ s with room := room }, ⟨true, none⟩)) := by
  have hb : (sub.gifSelectorId == playerId || sub.soundMakerId == playerId) = false := by
    simp [hgs, hsm]
  simp [castVote, hround, hstatus, hfind, hb, totalVotesOf]

/-- `endVotingPhase` closes the round, moves the room to `scoring`, leaves
the timer alone, and changes the submissions only through
`calculateScores`. -/
theorem endVotingPhase_shape (now : Nat) (s : GameLoopState) (r : Round)
    (h : lastRound? s.room = some r) :
    (endVotingPhase now s).room.status = RoomStatus.scoring ∧
    (endVotingPhase now s).timer = s.timer ∧
    lastRound? (endVotingPhase now s).room = some
      { r with
        status := RoundStatus.completed
        votingEndedAt := some now
        submissions := (calculateScores s.room.settings s.room.players r.submissions).2 } := by
  have h' : s.room.rounds.getLast? = some r := h
  rcases hcs : calculateScores s.room.settings s.room.players r.submissions with ⟨ps2, subs2⟩
  refine ⟨?_, ?_, ?_⟩ <;>
    simp [endVotingPhase, lastRound?, h', hcs, setLastRound, List.getLast?_concat]

/-- Equal `(id, votes)` projections give equal vote-list projections. -/
theorem votes_eq_of_idVotes_eq (l1 l2 : List Submission)
    (h : l1.map (fun x => (x.id, x.votes)) = l2.map (fun x => (x.id, x.votes))) :
    l1.map (fun x => x.votes) = l2.map (fun x => x.votes) := by
  have h2 := congrArg (List.map Prod.snd) h
  simpa [List.map_map, Function.comp] using h2

/-- `allVotes` only depends on the vote-list projection. -/
theorem allVotes_eq_of_votes_eq (l1 l2 : List Submission)
    (h : l1.map (fun x => x.votes) = l2.map (fun x => x.votes)) :
    allVotes l1 = allVotes l2 := by
  simp [allVotes, h]

/-- Per-submission filtered votes only depend on the vote-list projection. -/
theorem filterVotes_eq_of_votes_eq (l1 l2 : List Submission) (p : Vote → Bool)
    (h : l1.map (fun x => x.votes) = l2.map (fun x => x.votes)) :
    l1.map (fun x => x.votes.filter p) = l2.map (fun x => x.votes.filter p) := by
  have h2 := congrArg (List.map (fun v => List.filter p v)) h
  simpa [List.map_map, Function.comp] using h2

/-- Filtering twice with the same predicate filters once. -/
theorem filter_idem {α : Type} (p : α → Bool) (l : List α) :
    (l.filter p).filter p = l.filter p := by
  induction l with
  | nil => rfl
  | cons a t ih => by_cases h : p a <;> simp [List.filter_cons, h, ih]

/-- After removing every vote of the caster and appending the fresh vote to
the target submission, the caster holds exactly the fresh vote. -/
theorem caster_votes_after (roundSubs : List Submission)
    (playerId submissionId : String) (v : Vote) (hv : v.playerId = playerId)
    (hmem : ∃ x ∈ roundSubs, x.id = submissionId) :
    (allVotes (addVoteFirst (roundSubs.map
        (fun x => { x with votes := x.votes.filter (fun w => w.playerId != playerId) }))
        submissionId v)).filter (fun w => w.playerId == playerId) = [v] := by
  have hmem' : ∃ x ∈ roundSubs.map
      (fun x => { x with votes := x.votes.filter (fun w => w.playerId != playerId) }),
      x.id = submissionId := by
    rcases hmem with ⟨x, hx, hxid⟩
    exact ⟨_, List.mem_map_of_mem _ hx, hxid⟩
  have hperm := allVotes_addVoteFirst_perm _ submissionId v hmem'
  rw [allVotes_filter roundSubs (fun w => w.playerId != playerId)] at hperm
  have h2 := hperm.filter (fun w => w.playerId == playerId)
  have h3 : ((v :: (allVotes roundSubs).filter (fun w => w.playerId != playerId)).filter
      (fun w => w.playerId == playerId)) = [v] := by
    rw [List.filter_cons]
    simp only [hv, beq_self_eq_true, if_pos]
    have h4 : (((allVotes roundSubs).filter (fun w => w.playerId != playerId)).filter
        (fun w => w.playerId == playerId)) = [] := by
      apply List.filter_eq_nil_iff.mpr
      intro w hw
      have := (List.mem_filter.mp hw).2
      simp only [bne_iff_ne, ne_eq] at this
      simp [this]
    rw [h4]
  rw [h3] at h2
  exact List.perm_singleton.mp h2

/-- After the retract-and-insert step, filtering the caster away recovers the
old vote lists on every submission. -/
theorem frame_votes_after (roundSubs : List Submission)
    (playerId submissionId : String) (v : Vote) (hv : v.playerId = playerId) :
    (addVoteFirst (roundSubs.map
        (fun x => { x with votes := x.votes.filter (fun w => w.playerId != playerId) }))
        submissionId v).map (fun x => x.votes.filter (fun w => w.playerId != playerId)) =
      roundSubs.map (fun x => x.votes.filter (fun w => w.playerId != playerId)) := by
  rw [addVoteFirst_filter_map _ _ _ _ (by simp [hv])]
  have : ∀ x : Submission,
      ({ x with votes := x.votes.filter (fun w => w.playerId != playerId) } :
        Submission).votes.filter (fun w => w.playerId != playerId) =
      x.votes.filter (fun w => w.playerId != playerId) := by
    intro x
    exact filter_idem _ x.votes
  simp [List.map_map, Function.comp, this]

/-- `calculateScores` rewrites only scores, never ids or vote lists. -/
theorem idVotes_calculateScores (settings : GameSettings) (players : List Player)
    (subs : List Submission) :
    ((calculateScores settings players subs).2).map (fun x => (x.id, x.votes)) =
      subs.map (fun x => (x.id, x.votes)) := by
  rw [calculateScores_snd]
  simp [List.map_map, Function.comp]

/-- Success-path shape of `castVote`: whether or not the early-completion
fires, the call succeeds and the current round's submissions carry exactly
the retract-and-insert vote lists (ids untouched). -/
theorem castVote_success_shape
    (playerId submissionId : String) (category : VoteCategory) (voteId : String)
    (now : Nat) (s : GameLoopState) (round : Round) (sub : Submission)
    (hround : lastRound? s.room = some round)
    (hstatus : round.status = RoundStatus.voting)
    (hfind : round.submissions.find? (fun x => x.id == submissionId) = some sub)
    (hgs : ¬ sub.gifSelectorId = playerId) (hsm : ¬ sub.soundMakerId = playerId) :
    (castVote playerId submissionId category voteId now s).2 = ⟨true, none⟩ ∧
    ∃ round',
      lastRound? (castVote playerId submissionId category voteId now s).1.room =
          some round' ∧
      round'.submissions.map (fun x => (x.id, x.votes)) =
        (addVoteFirst (round.submissions.map
            (fun x => { x with votes := x.votes.filter (fun v => v.playerId != playerId) }))
            submissionId
            { id := voteId, playerId := playerId, submissionId := submissionId
              category := category, points := s.room.settings.pointsPerVote
              votedAt := now }).map (fun x => (x.id, x.votes)) := by
  rw [castVote_success_eq playerId submissionId category voteId now s round sub
    hround hstatus hfind hgs hsm]
  set vote : Vote :=
    { id := voteId, playerId := playerId, submissionId := submissionId
      category := category, points := s.room.settings.pointsPerVote
      votedAt := now } with hvote
  simp only []
  set subs2 := addVoteFirst (round.submissions.map
    (fun x => { x with votes := x.votes.filter (fun v => v.playerId != playerId) }))
    submissionId vote with hsubs2
  set room2 := setLastRound s.room { round with submissions := subs2 } with hroom2
  split
  · refine ⟨rfl, ?_⟩
    obtain ⟨hstat, htim, hlast⟩ :=
      endVotingPhase_shape now (clearRoomTimer { s with room := room2 })
        { round with submissions := subs2 } (lastRound?_setLastRound s.room _)
    refine ⟨_, hlast, ?_⟩
    exact idVotes_calculateScores _ _ _
  · exact ⟨rfl, _, lastRound?_setLastRound _ _, rfl⟩

/-- C9 counterexample.  Per-category independence fails on the code: in
`voteFixtureState`, `p1` holds a standard vote on `s1`; casting a
*bonus-category* vote on `s2` succeeds and deletes that standard vote (the
round's standard votes drop from one to none), although the claim says a
bonus vote retracts only a prior vote of the same bonus category. -/
theorem castVote_crossCategory_retraction_counterexample :
    standardVotes voteFixtureSubs = [mkTestVote "v1" "p1" "s1" VoteCategory.standard] ∧
    (castVote "p1" "s2" VoteCategory.bestMisinterpretation "v2" 7 voteFixtureState).2 =
      ⟨true, none⟩ ∧
    (lastRound? (castVote "p1" "s2" VoteCategory.bestMisinterpretation "v2" 7
        voteFixtureState).1.room).map (fun r => standardVotes r.submissions) =
      some [] := by
  refine ⟨by decide, by decide, by decide⟩

/-- C9 (amended).  Retract-and-replace is global, not per category: a
successful `castVote` in *any* category first removes every prior vote of the
caster in *every* category (the standard one included), so afterwards the
caster holds exactly the new vote across the whole round, while all other
players' votes on every submission are untouched. -/
theorem castVote_retracts_every_category
    (playerId submissionId : String) (category : VoteCategory) (voteId : String)
    (now : Nat) (s : GameLoopState) (round : Round) (sub : Submission)
    (hround : lastRound? s.room = some round)
    (hstatus : round.status = RoundStatus.voting)
    (hfind : round.submissions.find? (fun x => x.id == submissionId) = some sub)
    (hgs : ¬ sub.gifSelectorId = playerId) (hsm : ¬ sub.soundMakerId = playerId) :
    (castVote playerId submissionId category voteId now s).2 = ⟨true, none⟩ ∧
    ∃ round',
      lastRound? (castVote playerId submissionId category voteId now s).1.room =
        some round' ∧
      (allVotes round'.submissions).filter (fun w => w.playerId == playerId) =
        [{ id := voteId, playerId := playerId, submissionId := submissionId
           category := category, points := s.room.settings.pointsPerVote
           votedAt := now }] ∧
      round'.submissions.map (fun x => x.votes.filter (fun w => w.playerId != playerId)) =
        round.submissions.map (fun x => x.votes.filter (fun w => w.playerId != playerId)) := by
  obtain ⟨hok, round', hlast, hIdVotes⟩ :=
    castVote_success_shape playerId submissionId category voteId now s round sub
      hround hstatus hfind hgs hsm
  have hvotes := votes_eq_of_idVotes_eq _ _ hIdVotes
  have hid := List.find?_some hfind
  simp only [beq_iff_eq] at hid
  have hmem : ∃ x ∈ round.submissions, x.id = submissionId :=
    ⟨sub, List.mem_of_find?_eq_some hfind, hid⟩
  refine ⟨hok, round', hlast, ?_, ?_⟩
  · rw [allVotes_eq_of_votes_eq _ _ hvotes]
    exact caster_votes_after round.submissions playerId submissionId _ rfl hmem
  · rw [filterVotes_eq_of_votes_eq _ _ _ hvotes]
    exact frame_votes_after round.submissions playerId submissionId _ rfl

/-- Concrete instantiation of `castVote_retracts_every_category` on
`voteFixtureState`: `p1` casts a bonus vote on `s2` and afterwards holds only
that vote, while the other players' votes are untouched. -/
theorem castVote_retracts_every_category_witness :
    (castVote "p1" "s2" VoteCategory.bestMisinterpretation "v2" 7
        voteFixtureState).2 = ⟨true, none⟩ ∧
    ∃ round',
      lastRound? (castVote "p1" "s2" VoteCategory.bestMisinterpretation "v2" 7
          voteFixtureState).1.room = some round' ∧
      (allVotes round'.submissions).filter (fun w => w.playerId == "p1") =
        [{ id := "v2", playerId := "p1", submissionId := "s2"
           category := VoteCategory.bestMisinterpretation
           points := voteFixtureState.room.settings.pointsPerVote
           votedAt := 7 }] ∧
      round'.submissions.map (fun x => x.votes.filter (fun w => w.playerId != "p1")) =
        (lastRound? voteFixtureState.room).elim []
          (fun r => r.submissions.map (fun x => x.votes.filter (fun w => w.playerId != "p1"))) := by
  have h := castVote_retracts_every_category "p1" "s2"
    VoteCategory.bestMisinterpretation "v2" 7 voteFixtureState
    (mkTestRound RoundStatus.voting voteFixtureSubs)
    (mkTestSubmission "s2" "a2" "p2" "p3")
    (by decide) (by decide) (by decide) (by decide) (by decide)
  obtain ⟨hok, round', hlast, hcaster, hframe⟩ := h
  exact ⟨hok, round', hlast, hcaster, by rw [hframe]; decide⟩

/-- Filtering by a conjunction filters by each conjunct in turn. -/
theorem filter_and_split {α : Type} (p q : α → Bool) (l : List α) :
    l.filter (fun a => p a && q a) = (l.filter p).filter q := by
  induction l with
  | nil => rfl
  | cons a t ih => by_cases hp : p a <;> by_cases hq : q a <;>
      simp [List.filter_cons, hp, hq, ih]

/-- A failing `castVote` returns its input state unchanged. -/
theorem castVote_fail_unchanged
    (playerId submissionId : String) (category : VoteCategory) (voteId : String)
    (now : Nat) (s : GameLoopState)
    (h : (castVote playerId submissionId category voteId now s).2.success = false) :
    (castVote playerId submissionId category voteId now s).1 = s := by
  cases hlr : lastRound? s.room with
  | none => simp [castVote, hlr]
  | some round =>
    by_cases hst : round.status = RoundStatus.voting
    · cases hfind : round.submissions.find? (fun x => x.id == submissionId) with
      | none => simp [castVote, hlr, hst, hfind]
      | some sub =>
        by_cases hself : (sub.gifSelectorId == playerId || sub.soundMakerId == playerId) = true
        · simp [castVote, hlr, hst, hfind, hself]
        · exfalso
          simp only [Bool.or_eq_true, beq_iff_eq, not_or] at hself
          obtain ⟨hgs, hsm⟩ := hself
          have hok := (castVote_success_shape playerId submissionId category voteId
            now s round sub hlr hst hfind hgs hsm).1
          rw [hok] at h
          exact Bool.true_eq_false.mp h
    · simp [castVote, hlr, hst]

/-- C3.  Standard-vote uniqueness: (1) a successful standard `castVote`
retracts the caster's prior standard vote before inserting the new one, so
the caster afterwards holds exactly one standard vote; (2) `castVote` by a
connected player preserves the invariant that the round's votes are held by
pairwise-distinct connected players; (3) under that invariant the total
number of standard votes across all submissions never exceeds the number of
connected players. -/
theorem castVote_standard_uniqueness_and_bound
    (playerId submissionId voteId : String) (now : Nat) (s : GameLoopState)
    (C : List String) :
    (∀ round sub, lastRound? s.room = some round →
      round.status = RoundStatus.voting →
      round.submissions.find? (fun x => x.id == submissionId) = some sub →
      ¬ sub.gifSelectorId = playerId → ¬ sub.soundMakerId = playerId →
      ∃ round',
        lastRound? (castVote playerId submissionId VoteCategory.standard voteId
            now s).1.room = some round' ∧
        (allVotes round'.submissions).filter
            (fun w => w.playerId == playerId && w.category == VoteCategory.standard) =
          [{ id := voteId, playerId := playerId, submissionId := submissionId
             category := VoteCategory.standard
             points := s.room.settings.pointsPerVote, votedAt := now }]) ∧
    (playerId ∈ C →
      (∀ r, lastRound? s.room = some r → voteInv C r.submissions) →
      ∀ r', lastRound? (castVote playerId submissionId VoteCategory.standard voteId
          now s).1.room = some r' → voteInv C r'.submissions) ∧
    (∀ subs : List Submission, voteInv C subs →
      (standardVotes subs).length ≤ C.length) := by
  refine ⟨?_, ?_, ?_⟩
  · intro round sub hround hstatus hfind hgs hsm
    obtain ⟨hok, round', hlast, hIdVotes⟩ :=
      castVote_success_shape playerId submissionId VoteCategory.standard voteId
        now s round sub hround hstatus hfind hgs hsm
    have hvotes := votes_eq_of_idVotes_eq _ _ hIdVotes
    have hid := List.find?_some hfind
    simp only [beq_iff_eq] at hid
    have hmem : ∃ x ∈ round.submissions, x.id = submissionId :=
      ⟨sub, List.mem_of_find?_eq_some hfind, hid⟩
    refine ⟨round', hlast, ?_⟩
    rw [filter_and_split, allVotes_eq_of_votes_eq _ _ hvotes,
      caster_votes_after round.submissions playerId submissionId _ rfl hmem]
    simp [List.filter_cons]
  · intro hconn hinv r' hr'
    cases hlr : lastRound? s.room with
    | none =>
      have hres : (castVote playerId submissionId VoteCategory.standard voteId
          now s).1 = s := by simp [castVote, hlr]
      rw [hres] at hr'
      exact hinv r' hr'
    | some round =>
      by_cases hst : round.status = RoundStatus.voting
      · cases hfind : round.submissions.find? (fun x => x.id == submissionId) with
        | none =>
          have hres : (castVote playerId submissionId VoteCategory.standard voteId
              now s).1 = s := by simp [castVote, hlr, hst, hfind]
          rw [hres] at hr'
          exact hinv r' hr'
        | some sub =>
          by_cases hself :
              (sub.gifSelectorId == playerId || sub.soundMakerId == playerId) = true
          · have hres : (castVote playerId submissionId VoteCategory.standard voteId
                now s).1 = s := by simp [castVote, hlr, hst, hfind, hself]
            rw [hres] at hr'
            exact hinv r' hr'
          · simp only [Bool.or_eq_true, beq_iff_eq, not_or] at hself
            obtain ⟨hgs, hsm⟩ := hself
            obtain ⟨hok, round', hlast, hIdVotes⟩ :=
              castVote_success_shape playerId submissionId VoteCategory.standard
                voteId now s round sub hlr hst hfind hgs hsm
            have hr'' : round' = r' := by
              rw [hlast] at hr'
              exact Option.some.inj hr'
            subst hr''
            have hvotes := votes_eq_of_idVotes_eq _ _ hIdVotes
            have hid := List.find?_some hfind
            simp only [beq_iff_eq] at hid
            have hmem' : ∃ x ∈ round.submissions.map
                (fun x =>
                  ({ x with votes := x.votes.filter (fun w => w.playerId != playerId) })),
                x.id = submissionId := by
              exact ⟨_, List.mem_map_of_mem _ (List.mem_of_find?_eq_some hfind), hid⟩
            have hperm := allVotes_addVoteFirst_perm _ submissionId
              { id := voteId, playerId := playerId, submissionId := submissionId
                category := VoteCategory.standard
                points := s.room.settings.pointsPerVote, votedAt := now } hmem'
            rw [allVotes_filter round.submissions
              (fun w => w.playerId != playerId)] at hperm
            obtain ⟨hnd, hmemC⟩ := hinv round hlr
            have hallEq := allVotes_eq_of_votes_eq _ _ hvotes
            constructor
            · rw [hallEq]
              refine ((hperm.map (fun v => v.playerId)).nodup_iff).mpr ?_
              refine List.nodup_cons.mpr ⟨?_, ?_⟩
              · intro hcon
                obtain ⟨w, hw, hwid⟩ := List.mem_map.mp hcon
                have := (List.mem_filter.mp hw).2
                simp only [bne_iff_ne, ne_eq] at this
                exact this hwid
              · have hsub : List.Sublist
                    (((allVotes round.submissions).filter
                      (fun w => w.playerId != playerId)).map (fun v => v.playerId))
                    ((allVotes round.submissions).map (fun v => v.playerId)) :=
                  (List.filter_sublist _).map _
                exact hnd.sublist hsub
            · intro v hv
              rw [hallEq] at hv
              rcases List.mem_cons.mp (hperm.mem_iff.mp hv) with hveq | hvmem
              · rw [hveq]
                exact hconn
              · exact hmemC v (List.mem_of_mem_filter hvmem)
      · have hres : (castVote playerId submissionId VoteCategory.standard voteId
            now s).1 = s := by simp [castVote, hlr, hst]
        rw [hres] at hr'
        exact hinv r' hr'
  · rintro subs ⟨hnd, hmemC⟩
    have h1 : (standardVotes subs).length ≤ (allVotes subs).length :=
      List.length_filter_le _ _
    have h2 : ((allVotes subs).map (fun v => v.playerId)).length ≤ C.length := by
      refine (List.subperm_of_subset hnd ?_).length_le
      intro x hx
      obtain ⟨v, hv, hvx⟩ := List.mem_map.mp hx
      exact hvx ▸ hmemC v hv
    calc (standardVotes subs).length ≤ (allVotes subs).length := h1
      _ = ((allVotes subs).map (fun v => v.playerId)).length := (List.length_map _ _).symm
      _ ≤ C.length := h2

/-- Concrete instantiation of `castVote_standard_uniqueness_and_bound` on
`voteFixtureState`: `p2` casts a standard vote on `s1`; afterwards `p2` holds
exactly that standard vote, the voters-distinct-and-connected invariant still
holds, and the standard-vote count of the fixture round is bounded by the
four connected players. -/
theorem castVote_standard_uniqueness_and_bound_witness :
    (∃ round',
      lastRound? (castVote "p2" "s1" VoteCategory.standard "v9" 8
          voteFixtureState).1.room = some round' ∧
      (allVotes round'.submissions).filter
          (fun w => w.playerId == "p2" && w.category == VoteCategory.standard) =
        [{ id := "v9", playerId := "p2", submissionId := "s1"
           category := VoteCategory.standard
           points := voteFixtureState.room.settings.pointsPerVote, votedAt := 8 }]) ∧
    (∀ r', lastRound? (castVote "p2" "s1" VoteCategory.standard "v9" 8
        voteFixtureState).1.room = some r' →
      voteInv ["p1", "p2", "p3", "p4"] r'.submissions) ∧
    (standardVotes voteFixtureSubs).length ≤ (["p1", "p2", "p3", "p4"] : List String).length := by
  obtain ⟨h1, h2, h3⟩ := castVote_standard_uniqueness_and_bound "p2" "s1" "v9" 8
    voteFixtureState ["p1", "p2", "p3", "p4"]
  refine ⟨?_, ?_, ?_⟩
  · exact h1 (mkTestRound RoundStatus.voting voteFixtureSubs)
      { mkTestSubmission "s1" "a1" "p3" "p4" with
          votes := [mkTestVote "v1" "p1" "s1" VoteCategory.standard] }
      (by decide) (by decide) (by decide) (by decide) (by decide)
  · exact h2 (by decide) (by
      intro r hr
      have hr2 : some (mkTestRound RoundStatus.voting voteFixtureSubs) = some r := hr
      cases hr2
      unfold voteInv
      decide)
  · exact h3 voteFixtureSubs (by unfold voteInv; decide)

/-- C1 (amended).  During voting, a successful `castVote` — in *any*
category, bonus ones included — ends the round early exactly when the total
number of votes across all submissions and all categories (after the
retract-and-insert) reaches the number of connected players: on that path the
room moves to `scoring`, the round is `completed` and the phase timer is
cancelled; below the threshold nothing but the vote lists changes.  Any vote
attempted when the current round is not in `voting` — in particular after the
transition — is rejected with the phase-mismatch error and changes nothing. -/
theorem castVote_early_completion
    (playerId submissionId : String) (category : VoteCategory) (voteId : String)
    (now : Nat) (s : GameLoopState) (round : Round) (sub : Submission)
    (hround : lastRound? s.room = some round)
    (hstatus : round.status = RoundStatus.voting)
    (hfind : round.submissions.find? (fun x => x.id == submissionId) = some sub)
    (hgs : ¬ sub.gifSelectorId = playerId) (hsm : ¬ sub.soundMakerId = playerId) :
    (castVote playerId submissionId category voteId now s).2 = ⟨true, none⟩ ∧
    (totalVotesOf (addVoteFirst (round.submissions.map
        (fun x => ({ x with votes := x.votes.filter (fun v => v.playerId != playerId) })))
        submissionId
        { id := voteId, playerId := playerId, submissionId := submissionId
          category := category, points := s.room.settings.pointsPerVote
          votedAt := now }) < (connectedPlayers s.room).length →
      (castVote playerId submissionId category voteId now s).1.room.status =
          s.room.status ∧
      (castVote playerId submissionId category voteId now s).1.timer = s.timer ∧
      ∃ round',
        lastRound? (castVote playerId submissionId category voteId now s).1.room =
          some round' ∧ round'.status = RoundStatus.voting) ∧
    ((connectedPlayers s.room).length ≤
        totalVotesOf (addVoteFirst (round.submissions.map
          (fun x => ({ x with votes := x.votes.filter (fun v => v.playerId != playerId) })))
          submissionId
          { id := voteId, playerId := playerId, submissionId := submissionId
            category := category, points := s.room.settings.pointsPerVote
            votedAt := now }) →
      (castVote playerId submissionId category voteId now s).1.room.status =
          RoomStatus.scoring ∧
      (castVote playerId submissionId category voteId now s).1.timer = none ∧
      ∃ round',
        lastRound? (castVote playerId submissionId category voteId now s).1.room =
          some round' ∧ round'.status = RoundStatus.completed) ∧
    (∀ (s' : GameLoopState),
      (∀ round'', lastRound? s'.room = some round'' →
        ¬ round''.status = RoundStatus.voting) →
      castVote playerId submissionId category voteId now s' =
        (s', ⟨false, some "Not in voting phase"⟩)) := by
  refine ⟨(castVote_success_shape playerId submissionId category voteId now s round sub
    hround hstatus hfind hgs hsm).1, ?_, ?_, ?_⟩
  · intro hbelow
    rw [castVote_success_eq playerId submissionId category voteId now s round sub
      hround hstatus hfind hgs hsm]
    simp only []
    set subs2 := addVoteFirst (round.submissions.map
      (fun x => ({ x with votes := x.votes.filter (fun v => v.playerId != playerId) })))
      submissionId
      { id := voteId, playerId := playerId, submissionId := submissionId
        category := category, points := s.room.settings.pointsPerVote
        votedAt := now } with hsubs2
    have hbelow' : ¬ (connectedPlayers
        (setLastRound s.room { round with submissions := subs2 })).length ≤
        totalVotesOf subs2 := Nat.not_le.mpr hbelow
    rw [if_neg hbelow']
    exact ⟨rfl, rfl, _, lastRound?_setLastRound _ _, hstatus⟩
  · intro hat
    rw [castVote_success_eq playerId submissionId category voteId now s round sub
      hround hstatus hfind hgs hsm]
    simp only []
    set subs2 := addVoteFirst (round.submissions.map
      (fun x => ({ x with votes := x.votes.filter (fun v => v.playerId != playerId) })))
      submissionId
      { id := voteId, playerId := playerId, submissionId := submissionId
        category := category, points := s.room.settings.pointsPerVote
        votedAt := now } with hsubs2
    have hat' : (connectedPlayers
        (setLastRound s.room { round with submissions := subs2 })).length ≤
        totalVotesOf subs2 := hat
    rw [if_pos hat']
    obtain ⟨hstat, htim, hlast⟩ :=
      endVotingPhase_shape now
        (clearRoomTimer
          { s with room := setLastRound s.room { round with submissions := subs2 } })
        { round with submissions := subs2 }
        (lastRound?_setLastRound s.room { round with submissions := subs2 })
    exact ⟨hstat, htim, _, hlast, rfl⟩
  · intro s' hnv
    cases hlr : lastRound? s'.room with
    | none => simp [castVote, hlr]
    | some round'' =>
      have := hnv round'' hlr
      simp [castVote, hlr, this]

/-- C1 counterexample.  The early-completion check is not driven by the
standard-category tally alone: in `earlyVoteState` only 3 of the 4 connected
players hold standard votes, yet a *bonus-category* vote by the fourth player
(`p2`) makes the total vote count reach 4 and the round transitions to
scoring immediately — with the standard-vote count still 3, not 4. -/
theorem earlyCompletion_bonus_vote_counterexample :
    (standardVotes earlyVoteSubs).length = 3 ∧
    (connectedPlayers earlyVoteState.room).length = 4 ∧
    (castVote "p2" "s2" VoteCategory.bestMisinterpretation "v4" 9 earlyVoteState).2 =
      ⟨true, none⟩ ∧
    (castVote "p2" "s2" VoteCategory.bestMisinterpretation "v4" 9
      earlyVoteState).1.room.status = RoomStatus.scoring ∧
    (castVote "p2" "s2" VoteCategory.bestMisinterpretation "v4" 9
      earlyVoteState).1.timer = none ∧
    (lastRound? (castVote "p2" "s2" VoteCategory.bestMisinterpretation "v4" 9
        earlyVoteState).1.room).map
      (fun r => (r.status, (standardVotes r.submissions).length)) =
      some (RoundStatus.completed, 3) := by
  refine ⟨by decide, by decide, by decide, by decide, by decide, by decide⟩

/-- Concrete instantiation of `castVote_early_completion`: on
`voteFixtureState` a second standard vote (2 votes total, 4 connected) does
not end the phase and leaves the timer armed; on `earlyVoteState` a fourth
vote reaches the connected count and moves the room to scoring with the timer
cancelled; and on the already-completed round that results, a further vote is
rejected with the phase-mismatch error, changing nothing. -/
theorem castVote_early_completion_witness :
    ((castVote "p2" "s1" VoteCategory.standard "v9" 8 voteFixtureState).1.room.status =
        voteFixtureState.room.status ∧
      (castVote "p2" "s1" VoteCategory.standard "v9" 8 voteFixtureState).1.timer =
        voteFixtureState.timer) ∧
    ((castVote "p2" "s2" VoteCategory.bestMisinterpretation "v4" 9
        earlyVoteState).1.room.status = RoomStatus.scoring ∧
      (castVote "p2" "s2" VoteCategory.bestMisinterpretation "v4" 9
        earlyVoteState).1.timer = none) ∧
    castVote "p4" "s1" VoteCategory.standard "v7" 11
      (castVote "p2" "s2" VoteCategory.bestMisinterpretation "v4" 9 earlyVoteState).1 =
      ((castVote "p2" "s2" VoteCategory.bestMisinterpretation "v4" 9 earlyVoteState).1,
        ⟨false, some "Not in voting phase"⟩) := by
  refine ⟨?_, ?_, ?_⟩
  · have h := castVote_early_completion "p2" "s1" VoteCategory.standard "v9" 8
      voteFixtureState (mkTestRound RoundStatus.voting voteFixtureSubs)
      { mkTestSubmission "s1" "a1" "p3" "p4" with
          votes := [mkTestVote "v1" "p1" "s1" VoteCategory.standard] }
      (by decide) (by decide) (by decide) (by decide) (by decide)
    obtain ⟨ha, hb, _⟩ := h.2.1 (by decide)
    exact ⟨ha, hb⟩
  · have h := castVote_early_completion "p2" "s2" VoteCategory.bestMisinterpretation
      "v4" 9 earlyVoteState (mkTestRound RoundStatus.voting earlyVoteSubs)
      { mkTestSubmission "s2" "a2" "p3" "p4" with
          votes := [mkTestVote "v3" "p1" "s2" VoteCategory.standard] }
      (by decide) (by decide) (by decide) (by decide) (by decide)
    obtain ⟨ha, hb, _⟩ := h.2.2.1 (by decide)
    exact ⟨ha, hb⟩
  · have h := castVote_early_completion "p4" "s1" VoteCategory.standard "v7" 11
      earlyVoteState (mkTestRound RoundStatus.voting earlyVoteSubs)
      { mkTestSubmission "s1" "a1" "p1" "p2" with
          votes := [mkTestVote "v1" "p3" "s1" VoteCategory.standard,
            mkTestVote "v2" "p4" "s1" VoteCategory.standard] }
      (by decide) (by decide) (by decide) (by decide) (by decide)
    refine h.2.2.2 _ ?_
    intro round2 hr
    have hmap : (lastRound? (castVote "p2" "s2" VoteCategory.bestMisinterpretation
        "v4" 9 earlyVoteState).1.room).map (fun r => r.status) =
        some RoundStatus.completed := by decide
    rw [hr] at hmap
    simp only [Option.map_some'] at hmap
    rw [Option.some.inj hmap]
    decide

/-- `endCaptioningPhase` shows `results` on the room, jumps the round status
to `voting`, leaves the timer alone, and maps `autoSubmitFill` over the
submissions. -/
theorem endCaptioningPhase_shape (now : Nat) (s : GameLoopState) (r : Round)
    (h : lastRound? s.room = some r) :
    (endCaptioningPhase now s).room.status = RoomStatus.results ∧
    (endCaptioningPhase now s).timer = s.timer ∧
    lastRound? (endCaptioningPhase now s).room = some
      { r with
        status := RoundStatus.voting
        captioningEndedAt := some now
        submissions := r.submissions.map (autoSubmitFill now) } := by
  have h' : s.room.rounds.getLast? = some r := h
  refine ⟨?_, ?_, ?_⟩ <;>
    simp [endCaptioningPhase, lastRound?, h', setLastRound, List.getLast?_concat]

/-- `startVotingPhase` moves room and round to `voting`, arms the voting
timer, and leaves the submissions untouched. -/
theorem startVotingPhase_shape (s : GameLoopState) (r : Round)
    (h : lastRound? s.room = some r) :
    (startVotingPhase s).room.status = RoomStatus.voting ∧
    (startVotingPhase s).timer = some RoundStatus.voting ∧
    lastRound? (startVotingPhase s).room =
      some { r with status := RoundStatus.voting } := by
  have h' : s.room.rounds.getLast? = some r := h
  refine ⟨?_, ?_, ?_⟩ <;>
    simp [startVotingPhase, lastRound?, h', setLastRound, schedulePhaseEnd,
      List.getLast?_concat]

/-- The submission `modifyFirstSubmission` rewrote is in the result. -/
theorem modifyFirstSubmission_mem (subs : List Submission) (pred : Submission → Bool)
    (f : Submission → Submission) (sub : Submission)
    (h : subs.find? pred = some sub) :
    f sub ∈ modifyFirstSubmission subs pred f := by
  induction subs with
  | nil => simp at h
  | cons a t ih =>
    by_cases hp : pred a = true
    · have ha : a = sub := by
        rw [List.find?_cons_of_pos _ hp] at h
        exact Option.some.inj h
      rw [modifyFirstSubmission, if_pos hp, ← ha]
      exact List.mem_cons_self _ _
    · rw [modifyFirstSubmission, if_neg hp]
      refine List.mem_cons_of_mem _ (ih ?_)
      rw [List.find?_cons_of_neg _ hp] at h
      exact h

/-- A submission already carrying a timestamp passes `autoSubmitFill`
unchanged. -/
theorem autoSubmitFill_submitted (now : Nat) (sub : Submission)
    (h : sub.submittedAt.isSome) : autoSubmitFill now sub = sub := by
  have : sub.submittedAt.isNone = false := by
    rcases hs : sub.submittedAt with _ | t
    · rw [hs] at h; simp at h
    · rfl
  simp [autoSubmitFill, this]

/-- Success-path unfolding of `finalizeSubmission`: the assignment's
submission is stamped with `submittedAt := now`, then the all-submitted check
either ends the captioning phase with the timer cancelled or just records the
stamp. -/
theorem finalizeSubmission_success_eq
    (playerId assignmentId : String) (now : Nat) (s : GameLoopState)
    (round : Round) (sub : Submission)
    (hround : lastRound? s.room = some round)
    (hstatus : round.status = RoundStatus.captioning)
    (hfind : round.submissions.find? (fun x => x.assignmentId == assignmentId) = some sub)
    (hgsid : sub.gifSelectorId = playerId) :
    finalizeSubmission playerId assignmentId now s =
      (let subs := modifyFirstSubmission round.submissions
          (fun x => x.assignmentId == assignmentId)
          (fun x => { x with submittedAt := some now });
       let room := setLastRound s.room { round with submissions := subs };
       if subs.all (fun x => x.submittedAt.isSome) then
         (endCaptioningPhase now (clearRoomTimer { s with room := room }), ⟨true, none⟩)
       else ({ s with room := room }, ⟨true, none⟩)) := by
  simp [finalizeSubmission, hround, hstatus, hfind, hgsid]

/-- During captioning, `submitGif` by the assignment's GIF selector always
takes the success branch, whatever the submission's `submittedAt` holds. -/
theorem submitGif_success_eq (playerId assignmentId : String) (gif : GifData)
    (s : GameLoopState) (round : Round) (sub : Submission)
    (hround : lastRound? s.room = some round)
    (hstatus : round.status = RoundStatus.captioning)
    (hfind : round.submissions.find? (fun x => x.assignmentId == assignmentId) = some sub)
    (hgsid : sub.gifSelectorId = playerId) :
    submitGif playerId assignmentId gif s =
      (let subs := modifyFirstSubmission round.submissions
          (fun x => x.assignmentId == assignmentId)
          (fun x => { x with gif := some gif });
       ({ s with room := setLastRound s.room { round with submissions := subs } },
         ⟨true, none⟩)) := by
  simp [submitGif, hround, hstatus, hfind, hgsid]

/-- During captioning, `submitCaption` by the assignment's GIF selector always
takes the success branch, whatever the submission's `submittedAt` holds. -/
theorem submitCaption_success_eq (playerId assignmentId caption : String)
    (s : GameLoopState) (round : Round) (sub : Submission)
    (hround : lastRound? s.room = some round)
    (hstatus : round.status = RoundStatus.captioning)
    (hfind : round.submissions.find? (fun x => x.assignmentId == assignmentId) = some sub)
    (hgsid : sub.gifSelectorId = playerId) :
    submitCaption playerId assignmentId caption s =
      (let subs := modifyFirstSubmission round.submissions
          (fun x => x.assignmentId == assignmentId)
          (fun x => { x with caption := jsSlice caption 140 });
       ({ s with room := setLastRound s.room { round with submissions := subs } },
         ⟨true, none⟩)) := by
  simp [submitCaption, hround, hstatus, hfind, hgsid]

/-- C6 counterexample.  A finalized submission is not immutable while the
round stays in captioning: in `captionFixtureState`, `s1` was finalized at
time 5 with caption `"first"` and no GIF, yet `submitGif` still succeeds and
installs a GIF in the finalized submission (leaving its `submittedAt` at 5),
`submitCaption` still succeeds and changes its caption, and a second
`finalizeSubmission` succeeds and overwrites `submittedAt` with the new
timestamp 9. -/
theorem finalized_submission_mutable_counterexample :
    ((lastRound? captionFixtureState.room).map
      (fun r => r.submissions.map (fun x => (x.gif, x.caption, x.submittedAt)))) =
      some [(none, "first", some 5), (none, "", none)] ∧
    (submitGif "p2" "a1" defaultGif captionFixtureState).2 = ⟨true, none⟩ ∧
    ((lastRound? (submitGif "p2" "a1" defaultGif captionFixtureState).1.room).map
      (fun r => r.submissions.map (fun x => (x.gif, x.submittedAt)))) =
      some [(some defaultGif, some 5), (none, none)] ∧
    (submitCaption "p2" "a1" "second" captionFixtureState).2 = ⟨true, none⟩ ∧
    ((lastRound? (submitCaption "p2" "a1" "second" captionFixtureState).1.room).map
      (fun r => r.submissions.map (fun x => (x.caption, x.submittedAt)))) =
      some [("second", some 5), ("", none)] ∧
    (finalizeSubmission "p2" "a1" 9 captionFixtureState).2 = ⟨true, none⟩ ∧
    ((lastRound? (finalizeSubmission "p2" "a1" 9 captionFixtureState).1.room).map
      (fun r => r.submissions.map (fun x => x.submittedAt))) =
      some [some 9, none] := by
  refine ⟨by decide, by decide, by decide, by decide, by decide, by decide, by decide⟩

/-- C6 (amended).  A submission's `gif`, `caption` and `submittedAt` stay
mutable by its GIF selector for as long as the round is in `captioning`:
whenever the current round is in captioning and the assignment's submission
names the caller as its GIF selector — with no condition on `submittedAt`, so
in particular also after the submission was finalized — `submitGif` succeeds
and installs the new GIF (keeping the submission's `submittedAt`),
`submitCaption` succeeds and installs the truncated caption (keeping
`submittedAt`), and `finalizeSubmission` succeeds and overwrites
`submittedAt` with the new timestamp.  Only the phase guard freezes them:
once the current round's status is no longer `captioning`, every `submitGif`,
`submitCaption` and `finalizeSubmission` call fails with the phase error and
returns the state unchanged. -/
theorem submission_frozen_only_after_captioning
    (playerId assignmentId caption : String) (gif : GifData) (now : Nat)
    (s : GameLoopState)
    (hnc : ∀ round, lastRound? s.room = some round →
      ¬ round.status = RoundStatus.captioning) :
    submitGif playerId assignmentId gif s =
      (s, ⟨false, some "Not in captioning phase"⟩) ∧
    submitCaption playerId assignmentId caption s =
      (s, ⟨false, some "Not in captioning phase"⟩) ∧
    finalizeSubmission playerId assignmentId now s =
      (s, ⟨false, some "Not in captioning phase"⟩) ∧
    (∀ (s2 : GameLoopState) (round : Round) (sub : Submission),
      lastRound? s2.room = some round →
      round.status = RoundStatus.captioning →
      round.submissions.find? (fun x => x.assignmentId == assignmentId) = some sub →
      sub.gifSelectorId = playerId →
      ((submitGif playerId assignmentId gif s2).2 = ⟨true, none⟩ ∧
        ∃ round',
          lastRound? (submitGif playerId assignmentId gif s2).1.room = some round' ∧
          { sub with gif := some gif } ∈ round'.submissions) ∧
      ((submitCaption playerId assignmentId caption s2).2 = ⟨true, none⟩ ∧
        ∃ round',
          lastRound? (submitCaption playerId assignmentId caption s2).1.room =
            some round' ∧
          { sub with caption := jsSlice caption 140 } ∈ round'.submissions) ∧
      ((finalizeSubmission playerId assignmentId now s2).2 = ⟨true, none⟩ ∧
        ∃ round',
          lastRound? (finalizeSubmission playerId assignmentId now s2).1.room =
            some round' ∧
          ∃ x ∈ round'.submissions,
            x.assignmentId = sub.assignmentId ∧ x.submittedAt = some now)) := by
  refine ⟨?_, ?_, ?_, ?_⟩
  · cases hlr : lastRound? s.room with
    | none => simp [submitGif, hlr]
    | some round => simp [submitGif, hlr, hnc round hlr]
  · cases hlr : lastRound? s.room with
    | none => simp [submitCaption, hlr]
    | some round => simp [submitCaption, hlr, hnc round hlr]
  · cases hlr : lastRound? s.room with
    | none => simp [finalizeSubmission, hlr]
    | some round => simp [finalizeSubmission, hlr, hnc round hlr]
  · intro s2 round sub hround hstatus hfind hgsid
    refine ⟨?_, ?_, ?_⟩
    · rw [submitGif_success_eq playerId assignmentId gif s2 round sub
        hround hstatus hfind hgsid]
      exact ⟨rfl, _, lastRound?_setLastRound _ _,
        modifyFirstSubmission_mem round.submissions _ _ sub hfind⟩
    · rw [submitCaption_success_eq playerId assignmentId caption s2 round sub
        hround hstatus hfind hgsid]
      exact ⟨rfl, _, lastRound?_setLastRound _ _,
        modifyFirstSubmission_mem round.submissions _ _ sub hfind⟩
    · rw [finalizeSubmission_success_eq playerId assignmentId now s2 round sub
        hround hstatus hfind hgsid]
      simp only []
      set subs2 := modifyFirstSubmission round.submissions
        (fun x => x.assignmentId == assignmentId)
        (fun x => { x with submittedAt := some now }) with hsubs2
      have hmem : ({ sub with submittedAt := some now } : Submission) ∈ subs2 :=
        modifyFirstSubmission_mem round.submissions _ _ sub hfind
      split
      · next hall =>
        obtain ⟨hstat, htim, hlast⟩ :=
          endCaptioningPhase_shape now
            (clearRoomTimer
              { s2 with room := setLastRound s2.room { round with submissions := subs2 } })
            { round with submissions := subs2 }
            (lastRound?_setLastRound s2.room { round with submissions := subs2 })
        refine ⟨rfl, _, hlast, ?_⟩
        refine ⟨autoSubmitFill now { sub with submittedAt := some now },
          List.mem_map_of_mem _ hmem, ?_⟩
        rw [autoSubmitFill_submitted now _ (by rfl)]
        exact ⟨rfl, rfl⟩
      · refine ⟨rfl, _, lastRound?_setLastRound _ _, ?_⟩
        exact ⟨{ sub with submittedAt := some now }, hmem, rfl, rfl⟩

/-- Concrete instantiation of `submission_frozen_only_after_captioning`: on
the completed round that follows the early vote completion of
`earlyVoteState`, the mutation calls are rejected unchanged; and on
`captionFixtureState` (still captioning) `submitGif` installs a GIF in the
already-finalized `s1` (its stamp stays at 5) and a repeated finalize
restamps `s1` at time 9. -/
theorem submission_frozen_only_after_captioning_witness :
    (submitGif "p2" "a1" defaultGif
        (castVote "p2" "s2" VoteCategory.bestMisinterpretation "v4" 9
          earlyVoteState).1 =
      ((castVote "p2" "s2" VoteCategory.bestMisinterpretation "v4" 9
          earlyVoteState).1, ⟨false, some "Not in captioning phase"⟩)) ∧
    ((submitGif "p2" "a1" defaultGif captionFixtureState).2 = ⟨true, none⟩ ∧
      ∃ round',
        lastRound? (submitGif "p2" "a1" defaultGif captionFixtureState).1.room =
          some round' ∧
        ∃ x ∈ round'.submissions,
          x.gif = some defaultGif ∧ x.submittedAt = some 5) ∧
    (∃ round',
      lastRound? (finalizeSubmission "p2" "a1" 9 captionFixtureState).1.room =
        some round' ∧
      ∃ x ∈ round'.submissions, x.assignmentId = "a1" ∧ x.submittedAt = some 9) := by
  refine ⟨?_, ?_, ?_⟩
  · have h := submission_frozen_only_after_captioning "p2" "a1" "cap" defaultGif 9
      (castVote "p2" "s2" VoteCategory.bestMisinterpretation "v4" 9 earlyVoteState).1
      (by
        intro round2 hr
        have hmap : (lastRound? (castVote "p2" "s2" VoteCategory.bestMisinterpretation
            "v4" 9 earlyVoteState).1.room).map (fun r => r.status) =
            some RoundStatus.completed := by decide
        rw [hr] at hmap
        simp only [Option.map_some'] at hmap
        rw [Option.some.inj hmap]
        decide)
    exact h.1
  · have h := submission_frozen_only_after_captioning "p2" "a1" "cap" defaultGif 9
      earlyVoteState
      (by
        intro round2 hr
        have hr2 : some (mkTestRound RoundStatus.voting earlyVoteSubs) = some round2 := hr
        cases hr2
        decide)
    have hg := (h.2.2.2 captionFixtureState
      (mkTestRound RoundStatus.captioning captionFixtureSubs)
      { mkTestSubmission "s1" "a1" "p1" "p2" with submittedAt := some 5, caption := "first" }
      (by decide) (by decide) (by decide) (by decide)).1
    obtain ⟨hres, round', hlast, hmem⟩ := hg
    exact ⟨hres, round', hlast, _, hmem, rfl, rfl⟩
  · have h := submission_frozen_only_after_captioning "p2" "a1" "cap" defaultGif 9
      earlyVoteState
      (by
        intro round2 hr
        have hr2 : some (mkTestRound RoundStatus.voting earlyVoteSubs) = some round2 := hr
        cases hr2
        decide)
    exact ((h.2.2.2 captionFixtureState
      (mkTestRound RoundStatus.captioning captionFixtureSubs)
      { mkTestSubmission "s1" "a1" "p1" "p2" with submittedAt := some 5, caption := "first" }
      (by decide) (by decide) (by decide) (by decide)).2.2).2

/-- `endRecordingPhase` moves room and round to captioning, arms the
captioning timer, and maps `fillMissingAudio` over the submissions. -/
theorem endRecordingPhase_shape (placeholderId : String) (now : Nat)
    (s : GameLoopState) (r : Round) (h : lastRound? s.room = some r) :
    (endRecordingPhase placeholderId now s).room.status = RoomStatus.captioning ∧
    (endRecordingPhase placeholderId now s).timer = some RoundStatus.captioning ∧
    lastRound? (endRecordingPhase placeholderId now s).room = some
      { r with
        status := RoundStatus.captioning
        recordingEndedAt := some now
        submissions := r.submissions.map (fillMissingAudio placeholderId now) } := by
  have h' : s.room.rounds.getLast? = some r := h
  refine ⟨?_, ?_, ?_⟩ <;>
    simp [endRecordingPhase, lastRound?, h', setLastRound, schedulePhaseEnd,
      List.getLast?_concat]

/-- C4 counterexample.  A player-finalized submission reaches the voting
phase incomplete: in `finalizeFixtureState` the GIF selector finalizes `s1`
without ever choosing a GIF or caption; the early-completion path runs
`endCaptioningPhase`, the reveal pause then enters voting — and the round is
in `voting` with `s1.gif = none` and an empty caption, because the defaults
are only substituted for submissions *not yet* finalized. -/
theorem voting_entry_null_gif_counterexample :
    (finalizeSubmission "p2" "a1" 10 finalizeFixtureState).2 = ⟨true, none⟩ ∧
    (startVotingPhase
        (finalizeSubmission "p2" "a1" 10 finalizeFixtureState).1).room.status =
      RoomStatus.voting ∧
    (lastRound? (startVotingPhase
        (finalizeSubmission "p2" "a1" 10 finalizeFixtureState).1).room).map
      (fun r => (r.status, r.submissions.map (fun x => (x.gif, x.caption, x.submittedAt)))) =
      some (RoundStatus.voting, [(none, "", some 10)]) := by
  refine ⟨by decide, by decide, by decide⟩

/-- C4 (amended).  On the way to voting no submission is dropped and the
timeout defaults are substituted, but only for submissions the players did
not finalize themselves: `endRecordingPhase` gives every audio-less
submission the placeholder audio (duration 3, empty url); entering voting
(`endCaptioningPhase` then `startVotingPhase`) maps `autoSubmitFill` over
the submissions, preserving their number and audio, stamping `submittedAt`
on every submission, and substituting the default GIF and caption exactly
for the submissions that were still unfinalized — a submission finalized by
its player keeps whatever (possibly null) GIF and (possibly empty) caption
it had. -/
theorem voting_entry_fill_shape
    (placeholderId : String) (nowR nowC : Nat) (s : GameLoopState) (r : Round) :
    (lastRound? s.room = some r →
      ∃ r', lastRound? (endRecordingPhase placeholderId nowR s).room = some r' ∧
        r'.submissions = r.submissions.map (fillMissingAudio placeholderId nowR) ∧
        r'.submissions.length = r.submissions.length ∧
        ∀ sub' ∈ r'.submissions, sub'.audio ≠ none) ∧
    (∀ sub : Submission, sub.audio = none →
      (fillMissingAudio placeholderId nowR sub).audio =
        some (audioPlaceholder placeholderId nowR)) ∧
    (∀ sub : Submission, sub.audio ≠ none →
      fillMissingAudio placeholderId nowR sub = sub) ∧
    (audioPlaceholder placeholderId nowR).duration = 3 ∧
    (audioPlaceholder placeholderId nowR).url = "" ∧
    (lastRound? s.room = some r → (∀ sub ∈ r.submissions, sub.audio ≠ none) →
      ∃ r', lastRound? (startVotingPhase (endCaptioningPhase nowC s)).room = some r' ∧
        (startVotingPhase (endCaptioningPhase nowC s)).room.status = RoomStatus.voting ∧
        r'.status = RoundStatus.voting ∧
        r'.submissions = r.submissions.map (autoSubmitFill nowC) ∧
        r'.submissions.length = r.submissions.length ∧
        ∀ sub' ∈ r'.submissions, sub'.submittedAt ≠ none ∧ sub'.audio ≠ none) ∧
    (∀ sub : Submission, sub.submittedAt = none →
      (autoSubmitFill nowC sub).submittedAt = some nowC ∧
      (autoSubmitFill nowC sub).audio = sub.audio ∧
      (sub.gif = none → (autoSubmitFill nowC sub).gif = some defaultGif) ∧
      (sub.caption = "" → (autoSubmitFill nowC sub).caption = "No caption provided")) ∧
    (∀ sub : Submission, sub.submittedAt ≠ none → autoSubmitFill nowC sub = sub) := by
  have hfillAudio : ∀ sub : Submission,
      (fillMissingAudio placeholderId nowR sub).audio ≠ none := by
    intro sub
    rcases ha : sub.audio with _ | a
    · simp [fillMissingAudio, ha]
    · simp [fillMissingAudio, ha]
  have hfillSub : ∀ sub : Submission,
      (autoSubmitFill nowC sub).submittedAt ≠ none ∧
      (autoSubmitFill nowC sub).audio = sub.audio := by
    intro sub
    rcases hs : sub.submittedAt with _ | t
    · constructor
      · simp [autoSubmitFill, hs, apply_ite (fun x : Submission => x.submittedAt)]
      · simp [autoSubmitFill, hs, apply_ite (fun x : Submission => x.audio)]
    · rw [autoSubmitFill_submitted nowC sub (by rw [hs]; rfl)]
      simp [hs]
  refine ⟨?_, ?_, ?_, rfl, rfl, ?_, ?_, ?_⟩
  · intro hround
    obtain ⟨hstat0, htim0, hlast0⟩ :=
      endRecordingPhase_shape placeholderId nowR s r hround
    refine ⟨_, hlast0, rfl, by simp, ?_⟩
    intro sub' hsub'
    obtain ⟨sub, _, hmap⟩ := List.mem_map.mp hsub'
    rw [← hmap]
    exact hfillAudio sub
  · intro sub h
    simp [fillMissingAudio, h]
  · intro sub h
    rcases ha : sub.audio with _ | a
    · exact absurd ha h
    · simp [fillMissingAudio, ha]
  · intro hround haudio
    obtain ⟨hstat1, htim1, hlast1⟩ := endCaptioningPhase_shape nowC s r hround
    obtain ⟨hstat2, htim2, hlast2⟩ :=
      startVotingPhase_shape (endCaptioningPhase nowC s) _ hlast1
    refine ⟨_, hlast2, hstat2, ?_, ?_, ?_, ?_⟩
    · rfl
    · rfl
    · simp
    · intro sub' hsub'
      obtain ⟨sub, hsubmem, hmap⟩ := List.mem_map.mp hsub'
      rw [← hmap]
      refine ⟨(hfillSub sub).1, ?_⟩
      rw [(hfillSub sub).2]
      exact haudio sub hsubmem
  · intro sub h
    refine ⟨?_, ?_, ?_, ?_⟩
    · simp [autoSubmitFill, h, apply_ite (fun x : Submission => x.submittedAt)]
    · simp [autoSubmitFill, h, apply_ite (fun x : Submission => x.audio)]
    · intro hg
      simp [autoSubmitFill, h, hg, apply_ite (fun x : Submission => x.gif)]
    · intro hc
      simp [autoSubmitFill, h, hc, apply_ite (fun x : Submission => x.caption)]
  · intro sub h
    rcases hs : sub.submittedAt with _ | t
    · exact absurd hs h
    · exact autoSubmitFill_submitted nowC sub (by rw [hs]; rfl)

/-- Concrete instantiation of `voting_entry_fill_shape`: the recording
deadline on `recFixtureState` leaves every submission with audio, and
entering voting from `finalizeFixtureState` (whose submission has audio)
yields a voting round where every submission is finalized and has audio. -/
theorem voting_entry_fill_shape_witness :
    (∃ r', lastRound? (endRecordingPhase "ph" 3 recFixtureState).room = some r' ∧
      ∀ sub' ∈ r'.submissions, sub'.audio ≠ none) ∧
    (∃ r', lastRound? (startVotingPhase
        (endCaptioningPhase 7 finalizeFixtureState)).room = some r' ∧
      r'.status = RoundStatus.voting ∧
      ∀ sub' ∈ r'.submissions, sub'.submittedAt ≠ none ∧ sub'.audio ≠ none) := by
  constructor
  · obtain ⟨hA, _⟩ := voting_entry_fill_shape "ph" 3 7 recFixtureState
      (mkTestRound RoundStatus.recording [mkTestSubmission "s1" "a1" "p1" "p2"])
    obtain ⟨r', hlast, _, _, hall⟩ := hA (by decide)
    exact ⟨r', hlast, hall⟩
  · obtain ⟨_, _, _, _, _, hF, _⟩ := voting_entry_fill_shape "ph" 3 7
      finalizeFixtureState
      (mkTestRound RoundStatus.captioning
        [{ mkTestSubmission "s1" "a1" "p1" "p2" with
            audio := some (audioPlaceholder "au" 0) }])
    obtain ⟨r', hlast, _, hst, _, _, hall⟩ := hF (by decide) (by decide)
    exact ⟨r', hlast, hst, hall⟩

/-- `modifyFirstPlayer` keeps the id projection when the update does. -/
theorem modifyFirstPlayer_ids (ps : List Player) (pid : String)
    (f : Player → Player) (hf : ∀ p, (f p).id = p.id) :
    (modifyFirstPlayer ps pid f).map (fun p => p.id) = ps.map (fun p => p.id) := by
  induction ps with
  | nil => rfl
  | cons p rest ih =>
    by_cases hp : (p.id == pid) = true
    · simp [modifyFirstPlayer, hp, hf]
    · simp [modifyFirstPlayer, hp, ih]

/-- Crediting points onto the first player with id `pid` adds exactly those
points to that player's observed score and leaves everyone else's. -/
theorem getScore_modifyFirstPlayer_add (ps : List Player) (pid q : String)
    (pts : Nat) (hq : q ∈ ps.map (fun p => p.id)) :
    getScore (modifyFirstPlayer ps pid (fun p => { p with score := p.score + pts })) q =
      getScore ps q + (if pid = q then pts else 0) := by
  induction ps with
  | nil => simp at hq
  | cons p rest ih =>
    by_cases hp : (p.id == pid) = true
    · have hpid : p.id = pid := beq_iff_eq.mp hp
      by_cases hqp : (p.id == q) = true
      · have hq2 : p.id = q := beq_iff_eq.mp hqp
        rw [modifyFirstPlayer, if_pos hp]
        simp [getScore, List.find?_cons_of_pos, hqp, ← hpid, hq2]
      · rw [modifyFirstPlayer, if_pos hp]
        have hne : ¬ pid = q := by
          intro hcon
          exact hqp (beq_iff_eq.mpr (hpid.trans hcon))
        simp [getScore, List.find?_cons_of_neg, hqp, hne]
    · rw [modifyFirstPlayer, if_neg hp]
      by_cases hqp : (p.id == q) = true
      · have hne : ¬ pid = q := by
          intro hcon
          exact hp (beq_iff_eq.mpr ((beq_iff_eq.mp hqp).trans hcon.symm))
        simp [getScore, List.find?_cons_of_pos, hqp, hne]
      · have hq' : q ∈ rest.map (fun p => p.id) := by
          rcases List.mem_map.mp hq with ⟨x, hx, hxq⟩
          rcases List.mem_cons.mp hx with rfl | hx2
          · exact absurd (beq_iff_eq.mpr hxq) hqp
          · exact hxq ▸ List.mem_map_of_mem (fun p => p.id) hx2
        have hqp2 : (p.id == q) = false := by simpa using hqp
        have hgs : ∀ (l : List Player), getScore (p :: l) q = getScore l q := by
          intro l
          simp [getScore, List.find?_cons, hqp2]
        rw [hgs, hgs]
        exact ih hq'

/-- A fold of the `voteCounts` overwrites leaves keys it never sees
untouched. -/
theorem voteCountsFold_not_mem (t : List Submission) (m : String → Nat) (x : String)
    (hx : x ∉ t.map (fun s => s.id)) :
    (t.foldl (fun m s => fun id => if id == s.id then s.votes.length else m id) m) x =
      m x := by
  induction t generalizing m with
  | nil => rfl
  | cons a rest ih =>
    have hxa : ¬ x = a.id := fun hcon =>
      hx (List.mem_cons.mpr (Or.inl hcon))
    have hx' : x ∉ rest.map (fun s => s.id) := fun hcon =>
      hx (by simpa using Or.inr (by simpa using hcon))
    rw [List.foldl_cons, ih _ hx']
    simp [hxa]

/-- With pairwise-distinct submission ids, the `voteCounts` map returns each
submission's own vote count. -/
theorem voteCountsMap_eq (subs : List Submission)
    (hnd : (subs.map (fun s => s.id)).Nodup) :
    ∀ sub ∈ subs, voteCountsMap subs sub.id = sub.votes.length := by
  suffices h : ∀ (l : List Submission) (m : String → Nat),
      (l.map (fun s => s.id)).Nodup → ∀ sub ∈ l,
      (l.foldl (fun m s => fun id => if id == s.id then s.votes.length else m id) m)
        sub.id = sub.votes.length by
    intro sub hsub
    exact h subs _ hnd sub hsub
  intro l
  induction l with
  | nil => intro m _ sub h; simp at h
  | cons a t ih =>
    intro m hnd sub hsub
    rw [List.foldl_cons]
    have hnd' : (a.id :: t.map (fun s => s.id)).Nodup := by simpa using hnd
    rcases List.mem_cons.mp hsub with rfl | hmem
    · have hnotin : sub.id ∉ t.map (fun s => s.id) := (List.nodup_cons.mp hnd').1
      rw [voteCountsFold_not_mem t _ _ hnotin]
      simp
    · exact ih _ (List.nodup_cons.mp hnd').2 sub hmem

/-- With pairwise-distinct submission ids, the code's `maxVotes` is the
spec's round maximum. -/
theorem maxVotesOf_eq_spec (subs : List Submission)
    (hnd : (subs.map (fun s => s.id)).Nodup) :
    maxVotesOf subs = specRoundMaxVotes subs := by
  unfold maxVotesOf specRoundMaxVotes
  congr 1
  exact List.map_congr_left (fun sub hsub => voteCountsMap_eq subs hnd sub hsub)

/-- The code's per-submission score agrees with the spec's formula. -/
theorem rawSubmissionScore_eq_spec (settings : GameSettings) (maxV : Nat)
    (sub : Submission) :
    rawSubmissionScore settings maxV sub.votes.length =
      specSubmissionScore settings maxV sub := by
  simp only [rawSubmissionScore, specSubmissionScore]
  by_cases h1 : sub.votes.length = maxV
  · by_cases h2 : 0 < maxV
    · simp [h1, h2]
    · have : ¬ 0 < sub.votes.length := by omega
      simp [h1, h2, this]
  · simp [h1]

/-- The running player list of the `calculateScores` loop: each submission
credits its final score to the first player matching its GIF selector and,
when it carries the maximum votes, `soundMakerVotePoints` to the first
player matching its sound maker. -/
theorem calculateScores_players_fold (settings : GameSettings) (vc : String → Nat)
    (maxV : Nat) :
    ∀ (l : List Submission) (ps : List Player) (acc : List Submission) (q : String),
      q ∈ ps.map (fun p => p.id) →
      getScore (l.foldl (scoreOneSubmission settings vc maxV) (ps, acc)).1 q =
        getScore ps q + (l.map (fun sub =>
          (if sub.gifSelectorId = q then
            rawSubmissionScore settings maxV (vc sub.id) else 0) +
          (if vc sub.id = maxV ∧ 0 < maxV ∧ sub.soundMakerId = q then
            settings.soundMakerVotePoints else 0))).sum := by
  intro l
  induction l with
  | nil =>
    intro ps acc q hq
    simp
  | cons sub rest ih =>
    intro ps acc q hq
    rw [List.foldl_cons]
    have heta : scoreOneSubmission settings vc maxV (ps, acc) sub =
        ((scoreOneSubmission settings vc maxV (ps, acc) sub).1,
          (scoreOneSubmission settings vc maxV (ps, acc) sub).2) := rfl
    rw [heta]
    have hps1 : (scoreOneSubmission settings vc maxV (ps, acc) sub).1 =
        (if (vc sub.id == maxV && decide (vc sub.id > 0)) = true then
          modifyFirstPlayer
            (modifyFirstPlayer ps sub.gifSelectorId
              (fun p => { p with score :=
                p.score + rawSubmissionScore settings maxV (vc sub.id) }))
            sub.soundMakerId
            (fun p => { p with score := p.score + settings.soundMakerVotePoints })
        else
          modifyFirstPlayer ps sub.gifSelectorId
            (fun p => { p with score :=
              p.score + rawSubmissionScore settings maxV (vc sub.id) })) := rfl
    have hids : ∀ (ps' : List Player) (pid : String) (pts : Nat),
        (modifyFirstPlayer ps' pid
          (fun p => { p with score := p.score + pts })).map (fun p => p.id) =
        ps'.map (fun p => p.id) :=
      fun ps' pid pts => modifyFirstPlayer_ids ps' pid _ (fun p => rfl)
    have hq1 : q ∈ ((scoreOneSubmission settings vc maxV (ps, acc) sub).1).map
        (fun p => p.id) := by
      rw [hps1]
      by_cases hw : (vc sub.id == maxV && decide (vc sub.id > 0)) = true
      · rw [if_pos hw, hids, hids]
        exact hq
      · rw [if_neg hw, hids]
        exact hq
    rw [ih _ _ q hq1, List.map_cons, List.sum_cons]
    by_cases hw : (vc sub.id == maxV && decide (vc sub.id > 0)) = true
    · have hw' : vc sub.id = maxV ∧ 0 < maxV := by
        have := hw
        simp only [Bool.and_eq_true, beq_iff_eq, decide_eq_true_eq] at this
        exact ⟨this.1, this.1 ▸ this.2⟩
      have hsmcond : (if vc sub.id = maxV ∧ 0 < maxV ∧ sub.soundMakerId = q then
          settings.soundMakerVotePoints else 0) =
          (if sub.soundMakerId = q then settings.soundMakerVotePoints else 0) := by
        by_cases hsm : sub.soundMakerId = q <;> simp [hsm, hw'.1, hw'.2]
      rw [hps1, if_pos hw]
      rw [getScore_modifyFirstPlayer_add _ _ _ _ (by rw [hids]; exact hq)]
      rw [getScore_modifyFirstPlayer_add _ _ _ _ hq]
      rw [hsmcond]
      omega
    · have hsmcond : (if vc sub.id = maxV ∧ 0 < maxV ∧ sub.soundMakerId = q then
          settings.soundMakerVotePoints else 0) = 0 := by
        rw [if_neg]
        rintro ⟨h1, h2, _⟩
        apply hw
        simp only [Bool.and_eq_true, beq_iff_eq, decide_eq_true_eq]
        exact ⟨h1, by omega⟩
      rw [hps1, if_neg hw]
      rw [getScore_modifyFirstPlayer_add _ _ _ _ hq]
      rw [hsmcond]
      omega

/-- C2.  The Scoring Engine: with pairwise-distinct submission ids,
`calculateScores` gives every submission
`score = votes.count × pointsPerVote + participationPoints`, adds
`roundWinnerBonus` exactly when the submission's vote count equals the
round's positive maximum (each tied max submission gets the full bonus),
credits each submission's score to its GIF selector's cumulative score, and
credits `soundMakerVotePoints` to the sound maker of each max-vote
submission. -/
theorem calculateScores_spec (settings : GameSettings) (players : List Player)
    (subs : List Submission)
    (hnd : (subs.map (fun s => s.id)).Nodup) :
    ((calculateScores settings players subs).2 = subs.map (fun sub =>
      ({ sub with score :=
        (specSubmissionScore settings (specRoundMaxVotes subs) sub) }))) ∧
    (∀ q ∈ players.map (fun p => p.id),
      getScore (calculateScores settings players subs).1 q =
        getScore players q +
          (subs.map (specPlayerCredit settings (specRoundMaxVotes subs) q)).sum) := by
  constructor
  · rw [calculateScores_snd]
    apply List.map_congr_left
    intro sub hsub
    rw [voteCountsMap_eq subs hnd sub hsub, maxVotesOf_eq_spec subs hnd,
      rawSubmissionScore_eq_spec]
  · intro q hq
    have hcalc : (calculateScores settings players subs).1 =
        (subs.foldl (scoreOneSubmission settings (voteCountsMap subs)
          (maxVotesOf subs)) (players, [])).1 := rfl
    rw [hcalc,
      calculateScores_players_fold settings (voteCountsMap subs) (maxVotesOf subs)
        subs players [] q hq]
    congr 1
    apply congrArg
    apply List.map_congr_left
    intro sub hsub
    unfold specPlayerCredit
    rw [voteCountsMap_eq subs hnd sub hsub, maxVotesOf_eq_spec subs hnd,
      rawSubmissionScore_eq_spec]

/-- Concrete instantiation of `calculateScores_spec` on `voteFixtureSubs`
(one vote on `s1`, none on `s2`) among the four fixture players, read off at
the GIF selector `p4` of the winning submission. -/
theorem calculateScores_spec_witness :
    ((calculateScores defaultSettings
        [mkTestPlayer "p1" true 0, mkTestPlayer "p2" true 0,
          mkTestPlayer "p3" true 0, mkTestPlayer "p4" true 0]
        voteFixtureSubs).2 = voteFixtureSubs.map (fun sub =>
      ({ sub with score :=
        (specSubmissionScore defaultSettings (specRoundMaxVotes voteFixtureSubs) sub) }))) ∧
    getScore (calculateScores defaultSettings
        [mkTestPlayer "p1" true 0, mkTestPlayer "p2" true 0,
          mkTestPlayer "p3" true 0, mkTestPlayer "p4" true 0]
        voteFixtureSubs).1 "p4" =
      getScore [mkTestPlayer "p1" true 0, mkTestPlayer "p2" true 0,
          mkTestPlayer "p3" true 0, mkTestPlayer "p4" true 0] "p4" +
        (voteFixtureSubs.map (specPlayerCredit defaultSettings
          (specRoundMaxVotes voteFixtureSubs) "p4")).sum := by
  have h := calculateScores_spec defaultSettings
    [mkTestPlayer "p1" true 0, mkTestPlayer "p2" true 0,
      mkTestPlayer "p3" true 0, mkTestPlayer "p4" true 0]
    voteFixtureSubs (by decide)
  exact ⟨h.1, h.2 "p4" (by decide)⟩

/-- The entry loop preserves the `(playerId, score)` projection. -/
theorem buildEntries_pairs :
    ∀ (l : List Player) (i rk : Nat) (prev : Option Nat),
      (buildLeaderboardEntries l i rk prev).map (fun e => (e.playerId, e.score)) =
        l.map (fun p => (p.id, p.score))
  | [], _, _, _ => rfl
  | p :: rest, i, rk, prev => by
    simp only [buildLeaderboardEntries, List.map_cons]
    rw [buildEntries_pairs rest]

/-- The entry loop emits one entry per player. -/
theorem buildEntries_length :
    ∀ (l : List Player) (i rk : Nat) (prev : Option Nat),
      (buildLeaderboardEntries l i rk prev).length = l.length
  | [], _, _, _ => rfl
  | p :: rest, i, rk, prev => by
    simp only [buildLeaderboardEntries, List.length_cons]
    rw [buildEntries_length rest]

/-- Every entry the loop emits carries the literal `scoreChange := 0`. -/
theorem buildEntries_scoreChange :
    ∀ (l : List Player) (i rk : Nat) (prev : Option Nat),
      ∀ e ∈ buildLeaderboardEntries l i rk prev, e.scoreChange = 0
  | [], _, _, _ => by intro e he; simp [buildLeaderboardEntries] at he
  | p :: rest, i, rk, prev => by
    intro e he
    simp only [buildLeaderboardEntries] at he
    rcases List.mem_cons.mp he with rfl | hmem
    · rfl
    · exact buildEntries_scoreChange rest _ _ _ e hmem

/-- The entry scores are the player scores in order. -/
theorem buildEntries_scores :
    ∀ (l : List Player) (i rk : Nat) (prev : Option Nat),
      (buildLeaderboardEntries l i rk prev).map (fun e => e.score) =
        l.map (fun p => p.score)
  | [], _, _, _ => rfl
  | p :: rest, i, rk, prev => by
    simp only [buildLeaderboardEntries, List.map_cons]
    rw [buildEntries_scores rest]

/-- Standard competition ranking, adjacent form: an entry tied with its
predecessor shares the predecessor's rank; otherwise its rank restarts at
its (1-based) position. -/
theorem buildEntries_chain :
    ∀ (l : List Player) (i rk : Nat) (prev : Option Nat) (j : Nat)
      (hj : j + 1 < (buildLeaderboardEntries l i rk prev).length),
      (((buildLeaderboardEntries l i rk prev).get ⟨j, by omega⟩).score =
          ((buildLeaderboardEntries l i rk prev).get ⟨j + 1, hj⟩).score →
        ((buildLeaderboardEntries l i rk prev).get ⟨j + 1, hj⟩).rank =
          ((buildLeaderboardEntries l i rk prev).get ⟨j, by omega⟩).rank) ∧
      (¬ ((buildLeaderboardEntries l i rk prev).get ⟨j, by omega⟩).score =
          ((buildLeaderboardEntries l i rk prev).get ⟨j + 1, hj⟩).score →
        ((buildLeaderboardEntries l i rk prev).get ⟨j + 1, hj⟩).rank = i + j + 2)
  | [], i, rk, prev, j, hj => by simp [buildLeaderboardEntries] at hj
  | [p], i, rk, prev, j, hj => by simp [buildLeaderboardEntries] at hj
  | p :: q :: rest, i, rk, prev, 0, hj => by
    constructor
    · intro heq
      have hs : p.score = q.score := heq
      simp only [buildLeaderboardEntries]
      simp [hs]
    · intro hne
      have hs : ¬ p.score = q.score := hne
      simp only [buildLeaderboardEntries]
      simp [hs]
  | p :: q :: rest, i, rk, prev, Nat.succ k, hj => by
    have hj' : k + 1 <
        (buildLeaderboardEntries (q :: rest) (i + 1)
          (if prev == some p.score then rk else i + 1) (some p.score)).length := by
      have := hj
      simp only [buildLeaderboardEntries, List.length_cons] at this ⊢
      omega
    have ih := buildEntries_chain (q :: rest) (i + 1)
      (if prev == some p.score then rk else i + 1) (some p.score) k hj'
    constructor
    · intro heq
      exact ih.1 heq
    · intro hne
      have h2 : ((buildLeaderboardEntries (p :: q :: rest) i rk prev).get
          ⟨k.succ + 1, hj⟩).rank = (i + 1) + k + 2 := ih.2 hne
      omega
  termination_by l => l.length

/-- With no previous score, the first emitted entry gets rank `i + 1`. -/
theorem buildEntries_head_rank (l : List Player) (i rk : Nat)
    (h : 0 < (buildLeaderboardEntries l i rk none).length) :
    ((buildLeaderboardEntries l i rk none).get ⟨0, h⟩).rank = i + 1 := by
  cases l with
  | nil => simp [buildLeaderboardEntries] at h
  | cons p rest => simp [buildLeaderboardEntries]

/-- C7 (amended).  `getLeaderboard` ranks exactly the connected players with
their scores, in weakly descending score order, with standard competition
ranking (first entry rank 1, a tie keeps the previous rank, a strictly lower
score restarts at position + 1) — but every entry's `scoreChange` is the
literal `0`, not the player's score change for the just-completed round. -/
theorem getLeaderboard_spec (room : Room) :
    ((getLeaderboard room).map (fun e => (e.playerId, e.score))).Perm
      ((room.players.filter (fun p => p.isConnected)).map (fun p => (p.id, p.score))) ∧
    ((getLeaderboard room).map (fun e => e.score)).Pairwise (fun a b => b ≤ a) ∧
    (∀ h : 0 < (getLeaderboard room).length,
      ((getLeaderboard room).get ⟨0, h⟩).rank = 1) ∧
    (∀ (j : Nat) (hj : j + 1 < (getLeaderboard room).length),
      (((getLeaderboard room).get ⟨j, by omega⟩).score =
          ((getLeaderboard room).get ⟨j + 1, hj⟩).score →
        ((getLeaderboard room).get ⟨j + 1, hj⟩).rank =
          ((getLeaderboard room).get ⟨j, by omega⟩).rank) ∧
      (¬ ((getLeaderboard room).get ⟨j, by omega⟩).score =
          ((getLeaderboard room).get ⟨j + 1, hj⟩).score →
        ((getLeaderboard room).get ⟨j + 1, hj⟩).rank = j + 2)) ∧
    (∀ e ∈ getLeaderboard room, e.scoreChange = 0) := by
  refine ⟨?_, ?_, ?_, ?_, ?_⟩
  · rw [show getLeaderboard room = buildLeaderboardEntries
      (List.insertionSort scoreDescOrder (room.players.filter (fun p => p.isConnected)))
      0 1 none from rfl]
    rw [buildEntries_pairs]
    exact (List.perm_insertionSort scoreDescOrder _).map _
  · rw [show getLeaderboard room = buildLeaderboardEntries
      (List.insertionSort scoreDescOrder (room.players.filter (fun p => p.isConnected)))
      0 1 none from rfl]
    rw [buildEntries_scores]
    have hs := List.sorted_insertionSort scoreDescOrder
      (room.players.filter (fun p => p.isConnected))
    exact List.pairwise_map.mpr hs
  · intro h
    exact buildEntries_head_rank _ 0 1 h
  · intro j hj
    have h := buildEntries_chain
      (List.insertionSort scoreDescOrder (room.players.filter (fun p => p.isConnected)))
      0 1 none j hj
    refine ⟨h.1, fun hne => ?_⟩
    have h2 := h.2 hne
    have hz : 0 + j + 2 = j + 2 := by omega
    rw [hz] at h2
    exact h2
  · intro e he
    exact buildEntries_scoreChange _ 0 1 none e he

/-- C7 counterexample.  The per-entry score delta is not the player's round
score change: after the scoring transition triggered on `earlyVoteState`
every player's cumulative score changed from 0 (to 210 / 210 / 25 / 25),
yet every leaderboard entry reports `scoreChange = 0`. -/
theorem getLeaderboard_scoreChange_counterexample :
    (earlyVoteState.room.players.map (fun p => p.score) = [0, 0, 0, 0]) ∧
    ((getLeaderboard (castVote "p2" "s2" VoteCategory.bestMisinterpretation "v4" 9
        earlyVoteState).1.room).map
      (fun e => (e.playerId, e.score, e.scoreChange, e.rank)) =
      [("p2", 210, 0, 1), ("p4", 210, 0, 1), ("p1", 25, 0, 3), ("p3", 25, 0, 3)]) := by
  refine ⟨by decide, by decide⟩

/-- Concrete instantiation of `getLeaderboard_spec` on the post-scoring room
of the counterexample: the head entry has rank 1, the tied second entry
shares it, the third entry restarts at rank 3, and every `scoreChange` is
0. -/
theorem getLeaderboard_spec_witness :
    (∀ h : 0 < (getLeaderboard (castVote "p2" "s2"
        VoteCategory.bestMisinterpretation "v4" 9 earlyVoteState).1.room).length,
      ((getLeaderboard (castVote "p2" "s2" VoteCategory.bestMisinterpretation "v4" 9
        earlyVoteState).1.room).get ⟨0, h⟩).rank = 1) ∧
    (∀ e ∈ getLeaderboard (castVote "p2" "s2" VoteCategory.bestMisinterpretation
        "v4" 9 earlyVoteState).1.room, e.scoreChange = 0) := by
  have h := getLeaderboard_spec (castVote "p2" "s2"
    VoteCategory.bestMisinterpretation "v4" 9 earlyVoteState).1.room
  exact ⟨h.2.2.1, h.2.2.2.2⟩

/-- Claiming a selector shrinks the available pool by exactly that
selector. -/
theorem availableSelectors_step (gifSelectors used : List String) (sel : String) :
    gifSelectors.filter (fun id => !((sel :: used).contains id)) =
      (gifSelectors.filter (fun id => !(used.contains id))).filter
        (fun id => !(id == sel)) := by
  rw [← filter_and_split]
  apply List.filter_congr
  intro x _
  simp only [List.contains_cons, Bool.not_or]
  rw [Bool.and_comm]

/-- Removing a present selector from a duplicate-free pool shrinks it by
one. -/
theorem availableSelectors_step_length (avail : List String) (sel : String)
    (hnd : avail.Nodup) (hmem : sel ∈ avail) :
    (avail.filter (fun id => !(id == sel))).length = avail.length - 1 := by
  have herase : avail.erase sel = avail.filter (fun id => !(id == sel)) := by
    rw [List.Nodup.erase_eq_filter hnd]
    apply List.filter_congr
    intro x _
    rfl
  rw [← herase]
  exact List.length_erase_of_mem hmem

/-- Invariant of the assignment loop: with a duplicate-free selector pool,
the loop pairs the sound makers in order until the available selectors run
out, drawing pairwise-distinct selectors from the pool. -/
theorem makeAssignmentsGo_spec (gifSelectors : List String) (choose : Nat → Nat)
    (assignId : Nat → String) (roundNumber : Nat) (hnd : gifSelectors.Nodup) :
    ∀ (sm used : List String) (step : Nat),
      ((makeAssignmentsGo gifSelectors choose assignId roundNumber sm used step).map
          (fun a => a.soundMakerId) =
        sm.take (gifSelectors.filter (fun id => !(used.contains id))).length) ∧
      ((makeAssignmentsGo gifSelectors choose assignId roundNumber sm used step).map
          (fun a => a.gifSelectorId)).Nodup ∧
      (∀ x ∈ (makeAssignmentsGo gifSelectors choose assignId roundNumber sm used
          step).map (fun a => a.gifSelectorId),
        x ∈ gifSelectors.filter (fun id => !(used.contains id))) ∧
      (makeAssignmentsGo gifSelectors choose assignId roundNumber sm used step).length =
        min sm.length (gifSelectors.filter (fun id => !(used.contains id))).length := by
  intro sm
  induction sm with
  | nil =>
    intro used step
    simp [makeAssignmentsGo]
  | cons m rest ih =>
    intro used step
    by_cases h : 0 < (gifSelectors.filter (fun id => !(used.contains id))).length
    · rw [makeAssignmentsGo]
      rw [dif_pos h]
      have hsel : (gifSelectors.filter (fun id => !(used.contains id))).get
          ⟨choose step % (gifSelectors.filter
            (fun id => !(used.contains id))).length, Nat.mod_lt _ h⟩ ∈
          gifSelectors.filter (fun id => !(used.contains id)) := List.get_mem _ _ _
      set avail := gifSelectors.filter (fun id => !(used.contains id)) with havail
      set sel := avail.get ⟨choose step % avail.length, Nat.mod_lt _ h⟩ with hselDef
      have hndavail : avail.Nodup := hnd.filter _
      have hstep := availableSelectors_step gifSelectors used sel
      have hsteplen : (gifSelectors.filter
          (fun id => !((sel :: used).contains id))).length = avail.length - 1 := by
        rw [hstep]
        exact availableSelectors_step_length avail sel hndavail hsel
      obtain ⟨ihsm, ihnd, ihsub, ihlen⟩ := ih (sel :: used) (step + 1)
      refine ⟨?_, ?_, ?_, ?_⟩
      · simp only [List.map_cons, ihsm, hsteplen]
        have hlen : avail.length = (avail.length - 1) + 1 := by omega
        rw [hlen]
        rfl
      · simp only [List.map_cons]
        refine List.nodup_cons.mpr ⟨?_, ihnd⟩
        intro hcon
        have := ihsub sel hcon
        rw [hstep] at this
        have := (List.mem_filter.mp this).2
        simp at this
      · intro x hx
        simp only [List.map_cons] at hx
        rcases List.mem_cons.mp hx with rfl | hx2
        · exact hsel
        · have := ihsub x hx2
          rw [hstep] at this
          exact List.mem_of_mem_filter this
      · simp only [List.length_cons, ihlen, hsteplen]
        rw [← havail]
        have h' : 0 < avail.length := h
        omega
    · rw [makeAssignmentsGo]
      rw [dif_neg h]
      have hl0 : (gifSelectors.filter (fun id => !(used.contains id))).length = 0 := by
        omega
      obtain ⟨ihsm, ihnd, ihsub, ihlen⟩ := ih used (step + 1)
      refine ⟨?_, ihnd, ihsub, ?_⟩
      · rw [ihsm, hl0]
        rfl
      · rw [ihlen, hl0]
        simp

/-- C5.  Role split and pairing of `startRound` (via `buildRound`) for a
round started with the `n` connected players (shuffled into an arbitrary
order): exactly `⌈n/2⌉` players become sound makers and the rest GIF
selectors, the two sets are disjoint and cover the connected players, every
GIF selector appears in exactly one assignment and assignments carry
pairwise-distinct sound makers from the sound-maker set, when `n` is odd
exactly one sound maker is left without an assignment (the loop is total —
no error), and one empty submission is created per assignment. -/
theorem buildRound_roles_spec (room : Room) (currentRound now : Nat)
    (shuffled : List String) (choose : Nat → Nat) (assignId subId : Nat → String)
    (hperm : shuffled.Perm (connectedIds room)) (hnd : shuffled.Nodup) :
    ((buildRound currentRound now shuffled choose assignId subId).soundMakers.length =
        ((connectedIds room).length + 1) / 2 ∧
      (buildRound currentRound now shuffled choose assignId subId).gifSelectors.length =
        (connectedIds room).length - ((connectedIds room).length + 1) / 2) ∧
    (∀ x, x ∈ connectedIds room ↔
      (x ∈ (buildRound currentRound now shuffled choose assignId subId).soundMakers ∨
        x ∈ (buildRound currentRound now shuffled choose assignId subId).gifSelectors)) ∧
    List.Disjoint
      (buildRound currentRound now shuffled choose assignId subId).soundMakers
      (buildRound currentRound now shuffled choose assignId subId).gifSelectors ∧
    (∀ g ∈ (buildRound currentRound now shuffled choose assignId subId).gifSelectors,
      ((buildRound currentRound now shuffled choose assignId subId).assignments.map
        (fun a => a.gifSelectorId)).count g = 1) ∧
    (((buildRound currentRound now shuffled choose assignId subId).assignments.map
        (fun a => a.soundMakerId)).Nodup ∧
      ∀ a ∈ (buildRound currentRound now shuffled choose assignId subId).assignments,
        a.soundMakerId ∈
          (buildRound currentRound now shuffled choose assignId subId).soundMakers ∧
        a.gifSelectorId ∈
          (buildRound currentRound now shuffled choose assignId subId).gifSelectors) ∧
    ((connectedIds room).length % 2 = 1 →
      ((buildRound currentRound now shuffled choose assignId subId).soundMakers.filter
        (fun m => !(((buildRound currentRound now shuffled choose assignId
          subId).assignments.map (fun a => a.soundMakerId)).contains m))).length = 1) ∧
    (buildRound currentRound now shuffled choose assignId subId).submissions.length =
      (buildRound currentRound now shuffled choose assignId subId).assignments.length := by
  have hr1 : (buildRound currentRound now shuffled choose assignId subId).soundMakers =
      shuffled.take ((shuffled.length + 1) / 2) := rfl
  have hr2 : (buildRound currentRound now shuffled choose assignId subId).gifSelectors =
      shuffled.drop ((shuffled.length + 1) / 2) := rfl
  have hr3 : (buildRound currentRound now shuffled choose assignId subId).assignments =
      makeAssignmentsGo (shuffled.drop ((shuffled.length + 1) / 2)) choose assignId
        currentRound (shuffled.take ((shuffled.length + 1) / 2)) [] 0 := rfl
  have hn := hperm.length_eq
  have hkle : (shuffled.length + 1) / 2 ≤ shuffled.length := by omega
  have hsmlen : (shuffled.take ((shuffled.length + 1) / 2)).length =
      (shuffled.length + 1) / 2 := by
    rw [List.length_take]
    omega
  have hgslen : (shuffled.drop ((shuffled.length + 1) / 2)).length =
      shuffled.length - (shuffled.length + 1) / 2 := List.length_drop _ _
  have hgsnd : (shuffled.drop ((shuffled.length + 1) / 2)).Nodup :=
    hnd.sublist (List.drop_sublist _ _)
  have hsmnd : (shuffled.take ((shuffled.length + 1) / 2)).Nodup :=
    hnd.sublist (List.take_sublist _ _)
  have havail0 : (shuffled.drop ((shuffled.length + 1) / 2)).filter
      (fun id => !(([] : List String).contains id)) =
      shuffled.drop ((shuffled.length + 1) / 2) :=
    List.filter_eq_self.mpr (fun a _ => rfl)
  obtain ⟨hsm, hndsel, hsub, hlen⟩ :=
    makeAssignmentsGo_spec (shuffled.drop ((shuffled.length + 1) / 2)) choose
      assignId currentRound hgsnd (shuffled.take ((shuffled.length + 1) / 2)) [] 0
  rw [havail0] at hsm hlen
  simp only [havail0] at hsub
  rw [hgslen] at hsm hlen
  rw [hsmlen] at hlen
  have hALen : (makeAssignmentsGo (shuffled.drop ((shuffled.length + 1) / 2)) choose
      assignId currentRound (shuffled.take ((shuffled.length + 1) / 2)) [] 0).length =
      shuffled.length - (shuffled.length + 1) / 2 := by
    rw [hlen]
    omega
  refine ⟨⟨?_, ?_⟩, ?_, ?_, ?_, ⟨?_, ?_⟩, ?_, ?_⟩
  · rw [hr1, hsmlen, hn]
  · rw [hr2, hgslen, hn]
  · intro x
    rw [hr1, hr2]
    have hiff : x ∈ shuffled ↔ x ∈ connectedIds room := hperm.mem_iff
    constructor
    · intro hx
      have hx2 : x ∈ shuffled.take ((shuffled.length + 1) / 2) ++
          shuffled.drop ((shuffled.length + 1) / 2) := by
        rw [List.take_append_drop]
        exact hiff.mpr hx
      exact List.mem_append.mp hx2
    · intro hx
      refine hiff.mp ?_
      have hx2 : x ∈ shuffled.take ((shuffled.length + 1) / 2) ++
          shuffled.drop ((shuffled.length + 1) / 2) := List.mem_append.mpr hx
      rw [List.take_append_drop] at hx2
      exact hx2
  · rw [hr1, hr2]
    exact List.disjoint_take_drop hnd (Nat.le_refl _)
  · intro g hg
    rw [hr2] at hg
    rw [hr3]
    have hsellen : ((makeAssignmentsGo (shuffled.drop ((shuffled.length + 1) / 2))
        choose assignId currentRound (shuffled.take ((shuffled.length + 1) / 2))
        [] 0).map (fun a => a.gifSelectorId)).length =
        (shuffled.drop ((shuffled.length + 1) / 2)).length := by
      rw [List.length_map, hALen, hgslen]
    have hsubperm := List.subperm_of_subset hndsel (fun x hx => hsub x hx)
    have hpermsel := hsubperm.perm_of_length_le (by rw [hsellen])
    rw [hpermsel.count_eq g]
    exact List.count_eq_one_of_mem hgsnd hg
  · rw [hr3, hsm]
    exact hsmnd.sublist (List.take_sublist _ _)
  · intro a ha
    rw [hr3] at ha
    constructor
    · rw [hr1]
      have : a.soundMakerId ∈ (makeAssignmentsGo
          (shuffled.drop ((shuffled.length + 1) / 2)) choose assignId currentRound
          (shuffled.take ((shuffled.length + 1) / 2)) [] 0).map
          (fun a => a.soundMakerId) := List.mem_map_of_mem _ ha
      rw [hsm] at this
      exact List.take_subset _ _ this
    · rw [hr2]
      exact hsub a.gifSelectorId (List.mem_map_of_mem _ ha)
  · intro hodd
    rw [← hn] at hodd
    rw [hr1, hr3, hsm]
    have hcontains : ∀ (l : List String) (x : String),
        l.contains x = true ↔ x ∈ l := fun l x => List.elem_iff
    have hT := (List.take_append_drop (shuffled.length - (shuffled.length + 1) / 2)
      (shuffled.take ((shuffled.length + 1) / 2))).symm
    nth_rewrite 2 [hT]
    rw [List.filter_append]
    have h1 : ((shuffled.take ((shuffled.length + 1) / 2)).take
        (shuffled.length - (shuffled.length + 1) / 2)).filter
        (fun m => !(((shuffled.take ((shuffled.length + 1) / 2)).take
          (shuffled.length - (shuffled.length + 1) / 2)).contains m)) = [] := by
      apply List.filter_eq_nil_iff.mpr
      intro m hm
      simp [hcontains _ m, hm]
    have h2 : ((shuffled.take ((shuffled.length + 1) / 2)).drop
        (shuffled.length - (shuffled.length + 1) / 2)).filter
        (fun m => !(((shuffled.take ((shuffled.length + 1) / 2)).take
          (shuffled.length - (shuffled.length + 1) / 2)).contains m)) =
        (shuffled.take ((shuffled.length + 1) / 2)).drop
          (shuffled.length - (shuffled.length + 1) / 2) := by
      apply List.filter_eq_self.mpr
      intro m hm
      have hnotin : m ∉ (shuffled.take ((shuffled.length + 1) / 2)).take
          (shuffled.length - (shuffled.length + 1) / 2) := by
        intro hcon
        exact (List.disjoint_take_drop hsmnd (Nat.le_refl _)) hcon hm
      simp [hcontains _ m, hnotin]
    rw [h1, h2]
    simp only [List.nil_append, List.length_drop, List.length_take]
    omega
  · simp [buildRound]

/-- Concrete instantiation of `buildRound_roles_spec`: five connected
players split into 3 sound makers and 2 GIF selectors, each GIF selector is
assigned exactly once, exactly one sound maker is left idle, and one
submission exists per assignment. -/
theorem buildRound_roles_spec_witness :
    (buildRound 1 0 ["p1", "p2", "p3", "p4", "p5"] (fun _ => 0) (fun _ => "a")
      (fun _ => "s")).soundMakers.length = 3 ∧
    (buildRound 1 0 ["p1", "p2", "p3", "p4", "p5"] (fun _ => 0) (fun _ => "a")
      (fun _ => "s")).gifSelectors.length = 2 ∧
    (∀ g ∈ (buildRound 1 0 ["p1", "p2", "p3", "p4", "p5"] (fun _ => 0) (fun _ => "a")
        (fun _ => "s")).gifSelectors,
      ((buildRound 1 0 ["p1", "p2", "p3", "p4", "p5"] (fun _ => 0) (fun _ => "a")
        (fun _ => "s")).assignments.map (fun a => a.gifSelectorId)).count g = 1) ∧
    ((buildRound 1 0 ["p1", "p2", "p3", "p4", "p5"] (fun _ => 0) (fun _ => "a")
      (fun _ => "s")).soundMakers.filter
        (fun m => !(((buildRound 1 0 ["p1", "p2", "p3", "p4", "p5"] (fun _ => 0)
          (fun _ => "a") (fun _ => "s")).assignments.map
            (fun a => a.soundMakerId)).contains m))).length = 1 ∧
    (buildRound 1 0 ["p1", "p2", "p3", "p4", "p5"] (fun _ => 0) (fun _ => "a")
      (fun _ => "s")).submissions.length =
      (buildRound 1 0 ["p1", "p2", "p3", "p4", "p5"] (fun _ => 0) (fun _ => "a")
        (fun _ => "s")).assignments.length := by
  have h := buildRound_roles_spec roundRoom5 1 0 ["p1", "p2", "p3", "p4", "p5"]
    (fun _ => 0) (fun _ => "a") (fun _ => "s") (by decide) (by decide)
  refine ⟨?_, ?_, h.2.2.2.1, h.2.2.2.2.2.1 (by decide), h.2.2.2.2.2.2⟩
  · rw [h.1.1]
    decide
  · rw [h.1.2]
    decide
